import Mathlib

set_option linter.unusedVariables false

/-!
Shallow embedding of the playback-synchronization core of SDL_movie
(src/SDL_movie_player.c together with the player/movie state declared in
SDL_movie_internal.h).

Modelling conventions:
* Machine integers (`Uint64`/`Uint32` millisecond clocks, sample counters)
  are modelled as `Nat`; `int` parameters as `Int`.  None of the arithmetic
  the claims quantify over approaches the 2^32/2^64 wrap, and the source
  treats these fields as unbounded counters.
* Wall-clock reads (`SDL_GetTicks`) are modelled by a stream `List Nat` of
  the tick values future reads will return, consumed one per read in call
  order; the unconsumed tail is returned alongside the result.
* The decoders, the demuxer cursor operations and the SDL audio/video
  collaborators live in files of this repository that are not under src/
  (SDL_movie.c and the codec files); those operations are modelled from the
  spec, each marked `Modelled from the spec:` in its doc comment.
* `SDLMovie_UpdatePlayer` dereferences the audio cached-frame pointer
  without a null check (SDL_movie_player.c line 150); that potential null
  dereference is modelled by the whole call returning `none`.
* The ghost fields `audio_decoded` / `video_decoded` record which frame
  indices have been decoded so far; they only accumulate and are read by no
  operation, so they do not influence control flow.
-/

/-- CachedMovieFrame from SDL_movie_internal.h: metadata of one encoded
frame of a movie track. -/
structure CachedMovieFrame where
  timecode : Nat
  mem_offset : Nat
  offset : Nat
  size : Nat
  key_frame : Bool
deriving DecidableEq, Repr

/-- The audio-format slice of SDL_AudioSpec that the player core reads. -/
structure SDL_AudioSpec where
  freq : Nat
  channels : Nat
deriving DecidableEq, Repr

/-- The slice of struct SDL_Movie (SDL_movie_internal.h) that the player
core reads and writes: per-track cached-frame indexes with cursors and
totals, the timecode scale and audio format, and track availability.
`audio_decode_ok` / `video_decode_ok` / `audio_frame_samples` are oracles
standing for the external codecs (what decoding the frame at a given index
does); `audio_decoded` / `video_decoded` are ghost lists of the indices
decoded so far. -/
structure SDL_Movie where
  audio_frames : List CachedMovieFrame
  video_frames : List CachedMovieFrame
  total_audio_frames : Nat
  total_frames : Nat
  current_audio_frame : Nat
  current_frame : Nat
  timecode_scale : Nat
  audio_spec : SDL_AudioSpec
  has_audio : Bool
  has_video : Bool
  audio_codec_delay : Nat
  video_codec_delay : Nat
  current_frame_surface : Bool
  audio_decode_ok : Nat → Bool
  video_decode_ok : Nat → Bool
  audio_frame_samples : Nat → List Int
  decoded_audio_frame : List Int
  audio_decoded : List Nat
  video_decoded : List Nat

/-- struct SDL_MoviePlayer from SDL_movie_internal.h.  The audio staging
buffer backing storage is a total map index → sample once allocated
(`none` = not yet allocated); the bound output audio stream is modelled by
the list of samples queued into it (`none` = no stream bound). -/
structure SDL_MoviePlayer where
  paused : Bool
  finished : Bool
  video_playback : Bool
  audio_playback : Bool
  mov : Option SDL_Movie
  last_frame_at_ticks : Nat
  current_time : Nat
  next_audio_frame_at : Nat
  audio_buffer : Option (Nat → Int)
  audio_buffer_count : Nat
  audio_buffer_capacity : Nat
  bound_audio_device : Nat
  output_audio_stream : Option (List Int)
  audio_output_samples_buffer_size : Nat
  audio_output_samples_buffer_ms : Nat
  next_video_frame_at : Nat
  current_video_frame_surface : Bool
  output_video_frame_texture : Bool

/-- SDL_MovieTrackType from SDL_movie.h (the two track kinds the player
core uses). -/
inductive SDL_MovieTrackType where
  | AUDIO
  | VIDEO
deriving DecidableEq, Repr

/-- SDL_MOVIE_PLAYER_SOUND_PRELOAD_MS from SDL_movie_player.c line 3. -/
def SDL_MOVIE_PLAYER_SOUND_PRELOAD_MS : Nat := 50

/-- SDL_AUDIO_DEVICE_DEFAULT_PLAYBACK, SDL's reserved default-playback
device sentinel ((SDL_AudioDeviceID)0xFFFFFFFF). -/
def SDL_AUDIO_DEVICE_DEFAULT_PLAYBACK : Nat := 0xFFFFFFFF

/-- check_player from SDL_movie_player.c lines 5-8: a player is usable when
it exists and has a bound movie.  A null player pointer is not modelled
(every claim is about an existing player object), so only the `player->mov`
test remains. -/
def check_player (player : SDL_MoviePlayer) : Bool :=
  player.mov.isSome

/-- Modelled from the spec: `SDLMovie_CanPlaybackAudio` (declared in
SDL_movie_internal.h, defined in SDL_movie.c which is not under src/) —
whether the movie has a selected, playable audio track. -/
def SDLMovie_CanPlaybackAudio (m : SDL_Movie) : Bool :=
  m.has_audio

/-- Modelled from the spec: `SDLMovie_CanPlaybackVideo` — whether the movie
has a selected, playable video track. -/
def SDLMovie_CanPlaybackVideo (m : SDL_Movie) : Bool :=
  m.has_video

/-- Modelled from the spec: `has_next(track_kind)` for the audio track —
the cursor has not exhausted the track's cached frames. -/
def SDLMovie_HasNextAudioFrame (m : SDL_Movie) : Bool :=
  m.current_audio_frame < m.total_audio_frames

/-- Modelled from the spec: `has_next(track_kind)` for the video track. -/
def SDLMovie_HasNextVideoFrame (m : SDL_Movie) : Bool :=
  m.current_frame < m.total_frames

/-- Modelled from the spec: `current_cached_frame(track_kind) -> Frame?` —
the cached-frame index entry at the track's cursor, absent when the cursor
is outside the cached-frames array. -/
def SDLMovie_GetCurrentCachedFrame (m : SDL_Movie) :
    SDL_MovieTrackType → Option CachedMovieFrame
  | SDL_MovieTrackType.AUDIO => m.audio_frames[m.current_audio_frame]?
  | SDL_MovieTrackType.VIDEO => m.video_frames[m.current_frame]?

/-- Modelled from the spec: `timecode_to_ms(native_ticks)` — Matroska block
timecode times the per-movie timecode scale (nanoseconds per tick), taken
down to milliseconds. -/
def SDLMovie_TimecodeToMilliseconds (m : SDL_Movie) (timecode : Nat) : Nat :=
  timecode * m.timecode_scale / 1000000

/-- Modelled from the spec: `matroska_ticks_to_ms(native_ticks)` —
Matroska raw ticks (nanoseconds) to milliseconds. -/
def SDLMovie_MatroskaTicksToMilliseconds (m : SDL_Movie) (ticks : Nat) : Nat :=
  ticks / 1000000

/-- Modelled from the spec: `decode_next(audio)` — decode one audio frame
at the cursor.  The oracle `audio_decode_ok` decides success; on success
the movie's decoded-samples buffer is replaced by the frame's samples and
the frame index is recorded in the ghost list. -/
def SDLMovie_DecodeAudioFrame (m : SDL_Movie) : Bool × SDL_Movie :=
  if m.audio_decode_ok m.current_audio_frame then
    (true, { m with
      decoded_audio_frame := m.audio_frame_samples m.current_audio_frame,
      audio_decoded := m.current_audio_frame :: m.audio_decoded })
  else
    (false, m)

/-- Modelled from the spec: `decode_next(video)` — decode one video frame
at the cursor; success decided by the `video_decode_ok` oracle, the decoded
frame index recorded in the ghost list. -/
def SDLMovie_DecodeVideoFrame (m : SDL_Movie) : Bool × SDL_Movie :=
  if m.video_decode_ok m.current_frame then
    (true, { m with video_decoded := m.current_frame :: m.video_decoded })
  else
    (false, m)

/-- Modelled from the spec: `advance_cursor(audio)`. -/
def SDLMovie_NextAudioFrame (m : SDL_Movie) : SDL_Movie :=
  { m with current_audio_frame := m.current_audio_frame + 1 }

/-- Modelled from the spec: `advance_cursor(video)`. -/
def SDLMovie_NextVideoFrame (m : SDL_Movie) : SDL_Movie :=
  { m with current_frame := m.current_frame + 1 }

/-- Modelled from the spec: `get_decoded_audio_samples()` — the most
recent decode output (the samples, whose length is the returned count). -/
def SDLMovie_GetAudioSamples (m : SDL_Movie) : List Int :=
  m.decoded_audio_frame

/-- Modelled from the spec: `seek_to_start()` (`SDLMovie_SeekFrame(mov, 0)`
at bind time) — reset both track cursors so decode-cursor state is
deterministic. -/
def SDLMovie_SeekFrame (m : SDL_Movie) (frame : Nat) : SDL_Movie :=
  { m with current_frame := frame, current_audio_frame := frame }

/-- The copy loop of SDLMovie_AddAudioSamplesToPlayer (lines 284-287):
write the samples into the backing storage starting at the given base
index, one by one. -/
def writeSamplesAt (buf : Nat → Int) (base : Nat) : List Int → (Nat → Int)
  | [] => buf
  | x :: xs => writeSamplesAt (Function.update buf base x) (base + 1) xs

/-- SDLMovie_AddAudioSamplesToPlayer from SDL_movie_player.c lines 253-290.
`samples == NULL` is not modelled (a Lean list always exists); the
`count <= 0` early return is kept.  `SDL_calloc` is modelled as always
succeeding (allocation gives the all-zero map), so the
allocation-failure early return (lines 270-274) is unreachable here. -/
def SDLMovie_AddAudioSamplesToPlayer (player : SDL_MoviePlayer)
    (samples : List Int) (count : Int) : SDL_MoviePlayer :=
  match player.mov with
  | none => player
  | some m =>
    if count ≤ 0 then
      player
    else
      let player :=
        if player.audio_buffer.isNone then
          { player with
            audio_buffer_capacity :=
              m.audio_spec.freq * m.audio_spec.channels +
                player.audio_output_samples_buffer_size,
            audio_buffer := some (fun _ => 0) }
        else player
      match player.audio_buffer with
      | none => player
      | some buf =>
        let player :=
          if player.audio_buffer_count + count.toNat > player.audio_buffer_capacity then
            { player with audio_buffer_count := 0 }
          else player
        { player with
          audio_buffer :=
            some (writeSamplesAt buf player.audio_buffer_count (samples.take count.toNat)),
          audio_buffer_count := player.audio_buffer_count + count.toNat }

/-- SDLMovie_SetPlayerMovie from SDL_movie_player.c lines 54-83: rebind the
player to a movie, resetting the clock, the pacing deadlines, the finished
flag and the per-track playback flags, seeking the movie to the start, and
applying each track's codec delay (converted from Matroska ticks) as the
initial pacing deadline.  Track existence (`SDLMovie_GetAudioTrack` /
`SDLMovie_GetVideoTrack` non-null) is modelled by the has_audio/has_video
availability flags. -/
def SDLMovie_SetPlayerMovie (player : SDL_MoviePlayer) (mov : SDL_Movie) :
    SDL_MoviePlayer :=
  let m := SDLMovie_SeekFrame mov 0
  let naf :=
    if m.has_audio ∧ 0 < m.audio_codec_delay then
      SDLMovie_MatroskaTicksToMilliseconds m m.audio_codec_delay
    else 0
  let nvf :=
    if m.has_video ∧ 0 < m.video_codec_delay then
      SDLMovie_MatroskaTicksToMilliseconds m m.video_codec_delay
    else 0
  { player with
    mov := some m,
    current_time := 0,
    next_video_frame_at := nvf,
    next_audio_frame_at := naf,
    finished := false,
    video_playback := SDLMovie_CanPlaybackVideo m,
    audio_playback := SDLMovie_CanPlaybackAudio m }

/-- Events in the lifecycle of the player's bound output audio stream,
recorded (as ghost output) in the order SDLMovie_SetPlayerAudioOutput
performs them. -/
inductive AudioStreamEvent where
  | destroy
  | create
  | bind
deriving DecidableEq, Repr

/-- SDLMovie_SetPlayerAudioOutput from SDL_movie_player.c lines 292-351.
External SDL outcomes are parameters: `dev_format` is the result of
SDL_GetAudioDeviceFormat (`none` = failure, otherwise the device frequency
and its preferred sample-frame buffer size), `create_ok` / `bind_ok`
whether SDL_CreateAudioStream / SDL_BindAudioStream succeed.  Returns the
C bool result, the updated player, and the ordered ghost trace of stream
lifecycle events. -/
def SDLMovie_SetPlayerAudioOutput (player : SDL_MoviePlayer) (dev : Nat)
    (dev_format : Option (Nat × Nat)) (create_ok bind_ok : Bool) :
    Bool × SDL_MoviePlayer × List AudioStreamEvent :=
  match player.mov with
  | none => (false, player, [])
  | some m =>
    if dev = SDL_AUDIO_DEVICE_DEFAULT_PLAYBACK then
      (false, player, [])
    else if ¬ SDLMovie_CanPlaybackAudio m then
      (false, player, [])
    else
      let destroyed := player.output_audio_stream.isSome
      let player :=
        if player.output_audio_stream.isSome then
          { player with output_audio_stream := none, bound_audio_device := 0 }
        else player
      let ev0 : List AudioStreamEvent := if destroyed then [.destroy] else []
      if dev = 0 then
        (true, player, ev0)
      else
        match dev_format with
        | none => (false, player, ev0)
        | some (freq, hw_buffer) =>
          let size := if hw_buffer = 0 then 1024 else hw_buffer
          let player :=
            { player with
              audio_output_samples_buffer_size := size,
              audio_output_samples_buffer_ms := size * 1000 / freq }
          if ¬ create_ok then
            (false, player, ev0)
          else if ¬ bind_ok then
            (false, player, ev0 ++ [.create, .destroy])
          else
            (true,
              { player with
                output_audio_stream := some [],
                bound_audio_device := dev },
              ev0 ++ [.create, .bind])

/-- SDLMovie_GetPlayerAvailableAudioSamples from SDL_movie_player.c lines
353-367.  `count_ptr` models whether the caller passed a non-null count
pointer; the second component is `some n` exactly when the call wrote `n`
through that pointer. -/
def SDLMovie_GetPlayerAvailableAudioSamples (player : SDL_MoviePlayer)
    (count_ptr : Bool) : Option (Nat → Int) × Option Nat :=
  match player.mov with
  | none => (none, none)
  | some _ =>
    match player.audio_buffer with
    | none => (none, none)
    | some buf =>
      (some buf, if count_ptr then some player.audio_buffer_count else none)

/-- SDLMovie_PausePlayer from SDL_movie_player.c lines 369-380; unbinding
the output stream from its device leaves all player fields unchanged. -/
def SDLMovie_PausePlayer (player : SDL_MoviePlayer) : SDL_MoviePlayer :=
  match player.mov with
  | none => player
  | some _ => { player with paused := true }

/-- SDLMovie_ResumePlayer from SDL_movie_player.c lines 382-394; `now` is
the SDL_GetTicks reading taken on resume. -/
def SDLMovie_ResumePlayer (player : SDL_MoviePlayer) (now : Nat) :
    SDL_MoviePlayer :=
  match player.mov with
  | none => player
  | some _ => { player with paused := false, last_frame_at_ticks := now }

/-- SDLMovie_SetPlayerAudioEnabled from SDL_movie_player.c lines 481-492. -/
def SDLMovie_SetPlayerAudioEnabled (player : SDL_MoviePlayer) (enabled : Bool) :
    SDL_MoviePlayer :=
  match player.mov with
  | none => player
  | some m =>
    if ¬ SDLMovie_CanPlaybackAudio m then player
    else { player with audio_playback := enabled }

/-- SDLMovie_SetPlayerVideoEnabled from SDL_movie_player.c lines 494-505. -/
def SDLMovie_SetPlayerVideoEnabled (player : SDL_MoviePlayer) (enabled : Bool) :
    SDL_MoviePlayer :=
  match player.mov with
  | none => player
  | some m =>
    if ¬ SDLMovie_CanPlaybackVideo m then player
    else { player with video_playback := enabled }

/-- SDLMovie_SetPlayerVideoOutputTexture from SDL_movie_player.c lines
420-446.  The texture argument is modelled by whether it is non-null plus
whether its pixel format matches the movie's live decode surface. -/
def SDLMovie_SetPlayerVideoOutputTexture (player : SDL_MoviePlayer)
    (texture : Bool) (format_matches : Bool) : SDL_MoviePlayer :=
  match player.mov with
  | none => player
  | some m =>
    if ¬ texture then
      { player with output_video_frame_texture := false }
    else if ¬ m.current_frame_surface then
      player
    else if ¬ format_matches then
      player
    else
      { player with output_video_frame_texture := true }

theorem decodeAudio_current (m : SDL_Movie) :
    (SDLMovie_DecodeAudioFrame m).2.current_audio_frame = m.current_audio_frame := by
  unfold SDLMovie_DecodeAudioFrame
  split <;> rfl

theorem decodeAudio_total (m : SDL_Movie) :
    (SDLMovie_DecodeAudioFrame m).2.total_audio_frames = m.total_audio_frames := by
  unfold SDLMovie_DecodeAudioFrame
  split <;> rfl

theorem decodeVideo_current (m : SDL_Movie) :
    (SDLMovie_DecodeVideoFrame m).2.current_frame = m.current_frame := by
  unfold SDLMovie_DecodeVideoFrame
  split <;> rfl

theorem decodeVideo_total (m : SDL_Movie) :
    (SDLMovie_DecodeVideoFrame m).2.total_frames = m.total_frames := by
  unfold SDLMovie_DecodeVideoFrame
  split <;> rfl

/-- Outcome of the audio catch-up loop: `ub` models the null dereference of
the cached-frame pointer in the loop condition (line 150), `err` a decode
failure that aborts the whole update call, `ok` normal loop exit.  `err`
and `ok` carry the movie and player state at that point. -/
inductive AudioLoopOut where
  | ub
  | err (m : SDL_Movie) (p : SDL_MoviePlayer)
  | ok (m : SDL_Movie) (p : SDL_MoviePlayer)

/-- The audio pacing loop of SDLMovie_UpdatePlayer (SDL_movie_player.c
lines 150-177): while the track has a next frame and the cached frame at
the cursor has a millisecond presentation time strictly below the preload
horizon, decode one audio frame (failure aborts with ERROR), stage any
produced samples into the player (and, when an output stream is bound,
queue them there and zero the staging count), then advance the cursor.
The `player->mov` alias is kept in sync with the threaded movie. -/
def audioCatchupLoop (preload : Nat) (m : SDL_Movie) (p : SDL_MoviePlayer) :
    AudioLoopOut :=
  if h : SDLMovie_HasNextAudioFrame m then
    match SDLMovie_GetCurrentCachedFrame m SDL_MovieTrackType.AUDIO with
    | none => AudioLoopOut.ub
    | some fr =>
      if SDLMovie_TimecodeToMilliseconds m fr.timecode < preload then
        let dec := SDLMovie_DecodeAudioFrame m
        if dec.1 then
          let samples := SDLMovie_GetAudioSamples dec.2
          let p1 :=
            if 0 < samples.length then
              let p2 := SDLMovie_AddAudioSamplesToPlayer
                { p with mov := some dec.2 } samples (samples.length : Int)
              if p2.output_audio_stream.isSome then
                { p2 with
                  output_audio_stream :=
                    some (p2.output_audio_stream.getD [] ++ samples),
                  audio_buffer_count := 0 }
              else p2
            else { p with mov := some dec.2 }
          audioCatchupLoop preload (SDLMovie_NextAudioFrame dec.2) p1
        else AudioLoopOut.err dec.2 p
      else AudioLoopOut.ok m p
  else AudioLoopOut.ok m p
termination_by m.total_audio_frames - m.current_audio_frame
decreasing_by
  simp only [SDLMovie_HasNextAudioFrame, decide_eq_true_eq] at h
  simp only [SDLMovie_NextAudioFrame, decodeAudio_current, decodeAudio_total]
  omega

/-- Outcome of the video catch-up loop (SDL_movie_player.c lines 202-211);
the loop touches only the movie, never the player. -/
inductive VideoLoopOut where
  | err (m : SDL_Movie)
  | ok (m : SDL_Movie)

/-- The video pacing loop of SDLMovie_UpdatePlayer (lines 202-211): while
the track has a next frame, the cached-frame pointer is non-null, and its
millisecond presentation time is at most `now`, decode one video frame
(failure aborts with ERROR) and advance the cursor. -/
def videoCatchupLoop (now : Nat) (m : SDL_Movie) : VideoLoopOut :=
  if h : SDLMovie_HasNextVideoFrame m then
    match SDLMovie_GetCurrentCachedFrame m SDL_MovieTrackType.VIDEO with
    | none => VideoLoopOut.ok m
    | some fr =>
      if SDLMovie_TimecodeToMilliseconds m fr.timecode ≤ now then
        let dec := SDLMovie_DecodeVideoFrame m
        if dec.1 then
          videoCatchupLoop now (SDLMovie_NextVideoFrame dec.2)
        else VideoLoopOut.err dec.2
      else VideoLoopOut.ok m
  else VideoLoopOut.ok m
termination_by m.total_frames - m.current_frame
decreasing_by
  simp only [SDLMovie_HasNextVideoFrame, decide_eq_true_eq] at h
  simp only [SDLMovie_NextVideoFrame, decodeVideo_current, decodeVideo_total]
  omega

/-- Result of SDLMovie_UpdatePlayer: either the distinguished ERROR value,
or the bitmask built from SDL_MOVIE_PLAYER_UPDATE_NONE by or-ing in the
AUDIO and VIDEO bits (`bits false false` is SDL_MOVIE_PLAYER_UPDATE_NONE,
the "nothing happened" result). -/
inductive SDL_MoviePlayerUpdateResult where
  | error
  | bits (audio : Bool) (video : Bool)
deriving DecidableEq, Repr

/-- Outcome of one pacing branch of SDLMovie_UpdatePlayer: `ub` the audio
null dereference, `err` the early ERROR return, `ok advanced m p` normal
completion with `advanced` telling whether the branch executed. -/
inductive BranchOut where
  | ub
  | err (m : SDL_Movie) (p : SDL_MoviePlayer)
  | ok (advanced : Bool) (m : SDL_Movie) (p : SDL_MoviePlayer)

/-- The audio pacing branch of SDLMovie_UpdatePlayer (lines 138-186):
gated on audio playback being enabled, the movie having a playable audio
track, and the current time having reached `next_audio_frame_at`; runs the
catch-up loop against the preload horizon and then, if a cached frame
remains at the cursor, records its presentation time as the next audio
deadline. -/
def updateAudioBranch (m : SDL_Movie) (p : SDL_MoviePlayer) : BranchOut :=
  if p.audio_playback ∧ SDLMovie_CanPlaybackAudio m ∧
      p.next_audio_frame_at ≤ p.current_time then
    match audioCatchupLoop
        (p.current_time + SDL_MOVIE_PLAYER_SOUND_PRELOAD_MS) m p with
    | AudioLoopOut.ub => BranchOut.ub
    | AudioLoopOut.err m2 p2 => BranchOut.err m2 p2
    | AudioLoopOut.ok m2 p2 =>
      match SDLMovie_GetCurrentCachedFrame m2 SDL_MovieTrackType.AUDIO with
      | some fr =>
        BranchOut.ok true m2
          { p2 with
            next_audio_frame_at := SDLMovie_TimecodeToMilliseconds m2 fr.timecode }
      | none => BranchOut.ok true m2 p2
  else BranchOut.ok false m p

/-- The video pacing branch of SDLMovie_UpdatePlayer (lines 188-248):
gated like audio but on the video deadline; runs the catch-up loop up to
`current_time`, publishes the decoded picture (creating the player's
snapshot surface on first use), records the next video deadline from the
cached frame left at the cursor, and sets `finished` when the video track
has no next frame. -/
def updateVideoBranch (m : SDL_Movie) (p : SDL_MoviePlayer) : BranchOut :=
  if p.video_playback ∧ SDLMovie_CanPlaybackVideo m ∧
      p.next_video_frame_at ≤ p.current_time then
    match videoCatchupLoop p.current_time m with
    | VideoLoopOut.err m2 => BranchOut.err m2 p
    | VideoLoopOut.ok m2 =>
      let p2 :=
        if ¬ p.current_video_frame_surface then
          { p with current_video_frame_surface := true }
        else p
      let p3 :=
        match SDLMovie_GetCurrentCachedFrame m2 SDL_MovieTrackType.VIDEO with
        | some fr =>
          { p2 with
            next_video_frame_at := SDLMovie_TimecodeToMilliseconds m2 fr.timecode }
        | none => p2
      let p4 :=
        if ¬ SDLMovie_HasNextVideoFrame m2 then { p3 with finished := true }
        else p3
      BranchOut.ok true m2 p4
  else BranchOut.ok false m p

/-- The effective time delta of an update call (SDL_movie_player.c line
121): a negative `time_delta_ms` means "elapsed wall clock since the last
update" (one SDL_GetTicks read), otherwise the literal value. -/
def updateTimePassed (p : SDL_MoviePlayer) (time_delta_ms : Int)
    (ticks : List Nat) : Nat :=
  if time_delta_ms < 0 then ticks.headD 0 - p.last_frame_at_ticks
  else time_delta_ms.toNat

/-- SDLMovie_UpdatePlayer from SDL_movie_player.c lines 106-251.  `ticks`
is the stream of tick values successive SDL_GetTicks reads return; the
returned list is its unconsumed remainder.  `none` models the null
dereference of the audio cached-frame pointer in the loop condition at
line 150 (undefined behavior in the C source). -/
def SDLMovie_UpdatePlayer (p : SDL_MoviePlayer) (time_delta_ms : Int)
    (ticks : List Nat) :
    Option (SDL_MoviePlayerUpdateResult × SDL_MoviePlayer × List Nat) :=
  match p.mov with
  | none => some (SDL_MoviePlayerUpdateResult.bits false false, p, ticks)
  | some m =>
    if time_delta_ms = 0 then
      some (SDL_MoviePlayerUpdateResult.bits false false, p, ticks)
    else if p.paused ∨ p.finished then
      some (SDL_MoviePlayerUpdateResult.bits false false, p, ticks)
    else
      let time_passed := updateTimePassed p time_delta_ms ticks
      let ticks1 := if time_delta_ms < 0 then ticks.tail else ticks
      let p1 := { p with current_time := p.current_time + time_passed }
      let p2 := { p1 with last_frame_at_ticks := ticks1.headD 0 }
      let ticks2 := ticks1.tail
      match updateAudioBranch m p2 with
      | BranchOut.ub => none
      | BranchOut.err m2 p3 =>
        some (SDL_MoviePlayerUpdateResult.error, { p3 with mov := some m2 }, ticks2)
      | BranchOut.ok audio_adv m2 p3 =>
        match updateVideoBranch m2 p3 with
        | BranchOut.ub => none
        | BranchOut.err m3 p4 =>
          some (SDL_MoviePlayerUpdateResult.error, { p4 with mov := some m3 }, ticks2)
        | BranchOut.ok video_adv m3 p4 =>
          some (SDL_MoviePlayerUpdateResult.bits audio_adv video_adv,
            { p4 with mov := some m3 }, ticks2)

/-- Fields of the movie state that the pacing loops never change. -/
def MovieConstEq (a b : SDL_Movie) : Prop :=
  a.audio_frames = b.audio_frames ∧ a.video_frames = b.video_frames ∧
  a.total_audio_frames = b.total_audio_frames ∧ a.total_frames = b.total_frames ∧
  a.timecode_scale = b.timecode_scale ∧ a.audio_spec = b.audio_spec ∧
  a.has_audio = b.has_audio ∧ a.has_video = b.has_video

theorem movieConstEq_refl (a : SDL_Movie) : MovieConstEq a a := by
  simp [MovieConstEq]

theorem movieConstEq_trans {a b c : SDL_Movie} (h1 : MovieConstEq a b)
    (h2 : MovieConstEq b c) : MovieConstEq a c := by
  obtain ⟨x1, x2, x3, x4, x5, x6, x7, x8⟩ := h1
  obtain ⟨y1, y2, y3, y4, y5, y6, y7, y8⟩ := h2
  exact ⟨x1.trans y1, x2.trans y2, x3.trans y3, x4.trans y4, x5.trans y5,
    x6.trans y6, x7.trans y7, x8.trans y8⟩

theorem audioCatchupLoop_movie_pres (preload : Nat) (m : SDL_Movie)
    (p : SDL_MoviePlayer) :
    ∀ m2 p2,
      (audioCatchupLoop preload m p = AudioLoopOut.ok m2 p2 ∨
        audioCatchupLoop preload m p = AudioLoopOut.err m2 p2) →
      MovieConstEq m2 m ∧ m2.current_frame = m.current_frame ∧
      m2.video_decoded = m.video_decoded ∧
      m.current_audio_frame ≤ m2.current_audio_frame ∧
      (∀ i, i ∈ m.audio_decoded → i ∈ m2.audio_decoded) ∧
      ((∀ i, i < m.current_audio_frame → i ∈ m.audio_decoded) →
        ∀ i, i < m2.current_audio_frame → i ∈ m2.audio_decoded) := by
  induction m, p using audioCatchupLoop.induct preload with
  | case1 m p hnext hfr =>
    intro m2 p2 hrun
    rw [audioCatchupLoop.eq_def] at hrun
    simp only [hnext, hfr, dite_true] at hrun
    rcases hrun with hrun | hrun <;> exact absurd hrun (by simp)
  | case2 m p hnext fr hfr htc dec hdec samples p1 ih =>
    intro m2 p2 hrun
    have hdec2 : (SDLMovie_DecodeAudioFrame m).1 = true := hdec
    have hok : m.audio_decode_ok m.current_audio_frame = true := by
      by_contra hno
      rw [Bool.not_eq_true] at hno
      rw [SDLMovie_DecodeAudioFrame, hno] at hdec2
      simp at hdec2
    have hd2 : (SDLMovie_DecodeAudioFrame m).2 = { m with
        decoded_audio_frame := m.audio_frame_samples m.current_audio_frame,
        audio_decoded := m.current_audio_frame :: m.audio_decoded } := by
      rw [SDLMovie_DecodeAudioFrame, hok]
      simp
    have hred : audioCatchupLoop preload m p =
        audioCatchupLoop preload (SDLMovie_NextAudioFrame dec.2) p1 := by
      conv_lhs => rw [audioCatchupLoop.eq_def]
      simp only [hnext, hfr, htc, hdec2, dite_true, if_true, ite_true]
      rfl
    rw [hred] at hrun
    obtain ⟨hconst, hcf, hvd, hle, hmem, hpref⟩ := ih m2 p2 hrun
    have hnd2 : SDLMovie_NextAudioFrame dec.2 = { m with
        current_audio_frame := m.current_audio_frame + 1,
        decoded_audio_frame := m.audio_frame_samples m.current_audio_frame,
        audio_decoded := m.current_audio_frame :: m.audio_decoded } := by
      show SDLMovie_NextAudioFrame (SDLMovie_DecodeAudioFrame m).2 = _
      rw [SDLMovie_NextAudioFrame, hd2]
    rw [hnd2] at hconst hcf hvd hle hmem hpref
    refine ⟨movieConstEq_trans hconst (by simp [MovieConstEq]), by simpa using hcf,
      by simpa using hvd, by simp at hle; omega, ?_, ?_⟩
    · intro i hi
      exact hmem i (by simp [hi])
    · intro hp i hi
      refine hpref ?_ i hi
      intro j hj
      simp only [] at hj
      rcases Nat.lt_succ_iff_lt_or_eq.mp hj with hj2 | hj2
      · simp [hp j hj2]
      · simp [hj2]
  | case3 m p hnext fr hfr htc dec hdec =>
    intro m2 p2 hrun
    have hdec2 : (SDLMovie_DecodeAudioFrame m).1 = false := by
      have : ¬ dec.1 = true := hdec
      rw [Bool.not_eq_true] at this
      exact this
    have hok : m.audio_decode_ok m.current_audio_frame = false := by
      by_contra hno
      rw [Bool.not_eq_false] at hno
      rw [SDLMovie_DecodeAudioFrame, hno] at hdec2
      simp at hdec2
    have hd2 : (SDLMovie_DecodeAudioFrame m).2 = m := by
      rw [SDLMovie_DecodeAudioFrame, hok]
      simp
    have hred : audioCatchupLoop preload m p = AudioLoopOut.err dec.2 p := by
      conv_lhs => rw [audioCatchupLoop.eq_def]
      simp only [hnext, hfr, htc, hdec2, dite_true, if_true, ite_true, if_false,
        Bool.false_eq_true, ite_false]
    rw [hred] at hrun
    have hm2 : m2 = m ∧ p2 = p := by
      rcases hrun with hrun | hrun
      · exact absurd hrun (by simp)
      · have h1 := hrun
        injection h1 with ha hb
        constructor
        · rw [← ha]
          show (SDLMovie_DecodeAudioFrame m).2 = m
          exact hd2
        · exact hb.symm
    obtain ⟨hma, hpb⟩ := hm2
    subst hma hpb
    exact ⟨movieConstEq_refl _, rfl, rfl, Nat.le_refl _, fun i hi => hi, fun hp => hp⟩
  | case4 m p hnext fr hfr htc =>
    intro m2 p2 hrun
    have hred : audioCatchupLoop preload m p = AudioLoopOut.ok m p := by
      conv_lhs => rw [audioCatchupLoop.eq_def]
      simp only [hnext, hfr, dite_true, htc, if_false, ite_false, if_neg]
    rw [hred] at hrun
    have hm2 : m2 = m ∧ p2 = p := by
      rcases hrun with hrun | hrun
      · injection hrun with ha hb
        exact ⟨ha.symm, hb.symm⟩
      · exact absurd hrun (by simp)
    obtain ⟨hma, hpb⟩ := hm2
    subst hma hpb
    exact ⟨movieConstEq_refl _, rfl, rfl, Nat.le_refl _, fun i hi => hi, fun hp => hp⟩
  | case5 m p hnext =>
    intro m2 p2 hrun
    have hred : audioCatchupLoop preload m p = AudioLoopOut.ok m p := by
      conv_lhs => rw [audioCatchupLoop.eq_def]
      rw [dif_neg hnext]
    rw [hred] at hrun
    have hm2 : m2 = m ∧ p2 = p := by
      rcases hrun with hrun | hrun
      · injection hrun with ha hb
        exact ⟨ha.symm, hb.symm⟩
      · exact absurd hrun (by simp)
    obtain ⟨hma, hpb⟩ := hm2
    subst hma hpb
    exact ⟨movieConstEq_refl _, rfl, rfl, Nat.le_refl _, fun i hi => hi, fun hp => hp⟩

theorem addAudio_shape (p : SDL_MoviePlayer) (s : List Int) (c : Int) :
    ∃ ab n cap,
      SDLMovie_AddAudioSamplesToPlayer p s c =
        { p with audio_buffer := ab, audio_buffer_count := n,
                 audio_buffer_capacity := cap } := by
  unfold SDLMovie_AddAudioSamplesToPlayer
  dsimp only
  repeat' split
  all_goals exact ⟨_, _, _, rfl⟩

theorem audioStage_shape (p : SDL_MoviePlayer) (mv : SDL_Movie) (samples : List Int) :
    ∃ ab n cap st,
      (if h : 0 < samples.length then
        let p2 := SDLMovie_AddAudioSamplesToPlayer { p with mov := some mv }
          samples (samples.length : Int)
        if h : p2.output_audio_stream.isSome then
          { p2 with
            output_audio_stream := some (p2.output_audio_stream.getD [] ++ samples),
            audio_buffer_count := 0 }
        else p2
      else { p with mov := some mv }) =
      { p with mov := some mv, audio_buffer := ab, audio_buffer_count := n,
               audio_buffer_capacity := cap, output_audio_stream := st } := by
  split
  · obtain ⟨ab, n, cap, hA⟩ :=
      addAudio_shape { p with mov := some mv } samples (samples.length : Int)
    dsimp only
    rw [hA]
    split
    · exact ⟨_, _, _, _, rfl⟩
    · exact ⟨_, _, _, _, rfl⟩
  · exact ⟨_, _, _, _, rfl⟩

theorem audioCatchupLoop_player_pres (preload : Nat) (m : SDL_Movie)
    (p : SDL_MoviePlayer) :
    ∀ m2 p2,
      (audioCatchupLoop preload m p = AudioLoopOut.ok m2 p2 ∨
        audioCatchupLoop preload m p = AudioLoopOut.err m2 p2) →
      p2.paused = p.paused ∧ p2.finished = p.finished ∧
      p2.video_playback = p.video_playback ∧ p2.audio_playback = p.audio_playback ∧
      p2.last_frame_at_ticks = p.last_frame_at_ticks ∧
      p2.current_time = p.current_time ∧
      p2.next_audio_frame_at = p.next_audio_frame_at ∧
      p2.next_video_frame_at = p.next_video_frame_at ∧
      p2.current_video_frame_surface = p.current_video_frame_surface ∧
      p2.output_video_frame_texture = p.output_video_frame_texture := by
  induction m, p using audioCatchupLoop.induct preload with
  | case1 m p hnext hfr =>
    intro m2 p2 hrun
    rw [audioCatchupLoop.eq_def] at hrun
    simp only [hnext, hfr, dite_true] at hrun
    rcases hrun with hrun | hrun <;> exact absurd hrun (by simp)
  | case2 m p hnext fr hfr htc dec hdec samples p1 ih =>
    intro m2 p2 hrun
    have hdec2 : (SDLMovie_DecodeAudioFrame m).1 = true := hdec
    have hred : audioCatchupLoop preload m p =
        audioCatchupLoop preload (SDLMovie_NextAudioFrame dec.2) p1 := by
      conv_lhs => rw [audioCatchupLoop.eq_def]
      simp only [hnext, hfr, htc, hdec2, dite_true, if_true, ite_true]
      rfl
    rw [hred] at hrun
    obtain ⟨ab, n, cap, st, hstage⟩ := audioStage_shape p dec.2 samples
    have hp1b : p1 =
        { p with
          mov := some dec.2, audio_buffer := ab, audio_buffer_count := n,
          audio_buffer_capacity := cap, output_audio_stream := st } := hstage
    have hstep := ih m2 p2 hrun
    rw [hp1b] at hstep
    simpa using hstep
  | case3 m p hnext fr hfr htc dec hdec =>
    intro m2 p2 hrun
    have hdec2 : (SDLMovie_DecodeAudioFrame m).1 = false := by
      have hx : ¬ dec.1 = true := hdec
      rw [Bool.not_eq_true] at hx
      exact hx
    have hred : audioCatchupLoop preload m p = AudioLoopOut.err dec.2 p := by
      conv_lhs => rw [audioCatchupLoop.eq_def]
      simp only [hnext, hfr, htc, hdec2, dite_true, if_true, ite_true, if_false,
        Bool.false_eq_true, ite_false]
    rw [hred] at hrun
    have hpb : p2 = p := by
      rcases hrun with hrun | hrun
      · exact absurd hrun (by simp)
      · injection hrun with ha hb
        exact hb.symm
    subst hpb
    exact ⟨rfl, rfl, rfl, rfl, rfl, rfl, rfl, rfl, rfl, rfl⟩
  | case4 m p hnext fr hfr htc =>
    intro m2 p2 hrun
    have hred : audioCatchupLoop preload m p = AudioLoopOut.ok m p := by
      conv_lhs => rw [audioCatchupLoop.eq_def]
      simp only [hnext, hfr, dite_true, htc, if_false, ite_false, if_neg]
    rw [hred] at hrun
    have hpb : p2 = p := by
      rcases hrun with hrun | hrun
      · injection hrun with ha hb
        exact hb.symm
      · exact absurd hrun (by simp)
    subst hpb
    exact ⟨rfl, rfl, rfl, rfl, rfl, rfl, rfl, rfl, rfl, rfl⟩
  | case5 m p hnext =>
    intro m2 p2 hrun
    have hred : audioCatchupLoop preload m p = AudioLoopOut.ok m p := by
      conv_lhs => rw [audioCatchupLoop.eq_def]
      rw [dif_neg hnext]
    rw [hred] at hrun
    have hpb : p2 = p := by
      rcases hrun with hrun | hrun
      · injection hrun with ha hb
        exact hb.symm
      · exact absurd hrun (by simp)
    subst hpb
    exact ⟨rfl, rfl, rfl, rfl, rfl, rfl, rfl, rfl, rfl, rfl⟩

theorem audioCatchupLoop_ne_ub (preload : Nat) (m : SDL_Movie) (p : SDL_MoviePlayer) :
    m.total_audio_frames ≤ m.audio_frames.length →
    audioCatchupLoop preload m p ≠ AudioLoopOut.ub := by
  induction m, p using audioCatchupLoop.induct preload with
  | case1 m p hnext hfr =>
    intro hwf
    exfalso
    simp only [SDLMovie_HasNextAudioFrame, decide_eq_true_eq] at hnext
    simp only [SDLMovie_GetCurrentCachedFrame] at hfr
    rw [List.getElem?_eq_none_iff] at hfr
    omega
  | case2 m p hnext fr hfr htc dec hdec samples p1 ih =>
    intro hwf
    have hdec2 : (SDLMovie_DecodeAudioFrame m).1 = true := hdec
    have hok : m.audio_decode_ok m.current_audio_frame = true := by
      by_contra hno
      rw [Bool.not_eq_true] at hno
      rw [SDLMovie_DecodeAudioFrame, hno] at hdec2
      simp at hdec2
    have hnd2 : SDLMovie_NextAudioFrame dec.2 = { m with
        current_audio_frame := m.current_audio_frame + 1,
        decoded_audio_frame := m.audio_frame_samples m.current_audio_frame,
        audio_decoded := m.current_audio_frame :: m.audio_decoded } := by
      show SDLMovie_NextAudioFrame (SDLMovie_DecodeAudioFrame m).2 = _
      rw [SDLMovie_NextAudioFrame, SDLMovie_DecodeAudioFrame, hok]
      simp
    have hred : audioCatchupLoop preload m p =
        audioCatchupLoop preload (SDLMovie_NextAudioFrame dec.2) p1 := by
      conv_lhs => rw [audioCatchupLoop.eq_def]
      simp only [hnext, hfr, htc, hdec2, dite_true, if_true, ite_true]
      rfl
    rw [hred]
    refine ih ?_
    rw [hnd2]
    simpa using hwf
  | case3 m p hnext fr hfr htc dec hdec =>
    intro hwf
    have hdec2 : (SDLMovie_DecodeAudioFrame m).1 = false := by
      have hx : ¬ dec.1 = true := hdec
      rw [Bool.not_eq_true] at hx
      exact hx
    have hred : audioCatchupLoop preload m p = AudioLoopOut.err dec.2 p := by
      conv_lhs => rw [audioCatchupLoop.eq_def]
      simp only [hnext, hfr, htc, hdec2, dite_true, if_true, ite_true, if_false,
        Bool.false_eq_true, ite_false]
    rw [hred]
    simp
  | case4 m p hnext fr hfr htc =>
    intro hwf
    have hred : audioCatchupLoop preload m p = AudioLoopOut.ok m p := by
      conv_lhs => rw [audioCatchupLoop.eq_def]
      simp only [hnext, hfr, dite_true, htc, if_false, ite_false, if_neg]
    rw [hred]
    simp
  | case5 m p hnext =>
    intro hwf
    have hred : audioCatchupLoop preload m p = AudioLoopOut.ok m p := by
      conv_lhs => rw [audioCatchupLoop.eq_def]
      rw [dif_neg hnext]
    rw [hred]
    simp

theorem audioCatchupLoop_covers (preload : Nat) (m : SDL_Movie) (p : SDL_MoviePlayer) :
    m.total_audio_frames = m.audio_frames.length →
    (∀ i j : Fin m.audio_frames.length, (i : Nat) ≤ (j : Nat) →
      SDLMovie_TimecodeToMilliseconds m (m.audio_frames.get i).timecode ≤
        SDLMovie_TimecodeToMilliseconds m (m.audio_frames.get j).timecode) →
    (∀ i, i < m.current_audio_frame → i ∈ m.audio_decoded) →
    ∀ m2 p2, audioCatchupLoop preload m p = AudioLoopOut.ok m2 p2 →
    ∀ i (hi : i < m.audio_frames.length),
      SDLMovie_TimecodeToMilliseconds m (m.audio_frames.get ⟨i, hi⟩).timecode < preload →
      i ∈ m2.audio_decoded := by
  induction m, p using audioCatchupLoop.induct preload with
  | case1 m p hnext hfr =>
    intro hlen hsorted hpre m2 p2 hrun
    rw [audioCatchupLoop.eq_def] at hrun
    simp only [hnext, hfr, dite_true] at hrun
    exact absurd hrun (by simp)
  | case2 m p hnext fr hfr htc dec hdec samples p1 ih =>
    intro hlen hsorted hpre m2 p2 hrun i hi htcms
    have hdec2 : (SDLMovie_DecodeAudioFrame m).1 = true := hdec
    have hok : m.audio_decode_ok m.current_audio_frame = true := by
      by_contra hno
      rw [Bool.not_eq_true] at hno
      rw [SDLMovie_DecodeAudioFrame, hno] at hdec2
      simp at hdec2
    have hnd2 : SDLMovie_NextAudioFrame dec.2 = { m with
        current_audio_frame := m.current_audio_frame + 1,
        decoded_audio_frame := m.audio_frame_samples m.current_audio_frame,
        audio_decoded := m.current_audio_frame :: m.audio_decoded } := by
      show SDLMovie_NextAudioFrame (SDLMovie_DecodeAudioFrame m).2 = _
      rw [SDLMovie_NextAudioFrame, SDLMovie_DecodeAudioFrame, hok]
      simp
    have hred : audioCatchupLoop preload m p =
        audioCatchupLoop preload (SDLMovie_NextAudioFrame dec.2) p1 := by
      conv_lhs => rw [audioCatchupLoop.eq_def]
      simp only [hnext, hfr, htc, hdec2, dite_true, if_true, ite_true]
      rfl
    rw [hred, hnd2] at hrun
    rw [hnd2] at ih
    dsimp only at ih
    refine ih hlen hsorted ?_ m2 p2 hrun i hi htcms
    intro j hj
    rcases Nat.lt_succ_iff_lt_or_eq.mp hj with hj2 | hj2
    · exact List.mem_cons_of_mem _ (hpre j hj2)
    · rw [hj2]
      exact List.mem_cons_self _ _
  | case3 m p hnext fr hfr htc dec hdec =>
    intro hlen hsorted hpre m2 p2 hrun i hi htcms
    have hdec2 : (SDLMovie_DecodeAudioFrame m).1 = false := by
      have hx : ¬ dec.1 = true := hdec
      rw [Bool.not_eq_true] at hx
      exact hx
    have hred : audioCatchupLoop preload m p = AudioLoopOut.err dec.2 p := by
      conv_lhs => rw [audioCatchupLoop.eq_def]
      simp only [hnext, hfr, htc, hdec2, dite_true, if_true, ite_true, if_false,
        Bool.false_eq_true, ite_false]
    rw [hred] at hrun
    exact absurd hrun (by simp)
  | case4 m p hnext fr hfr htc =>
    intro hlen hsorted hpre m2 p2 hrun i hi htcms
    have hred : audioCatchupLoop preload m p = AudioLoopOut.ok m p := by
      conv_lhs => rw [audioCatchupLoop.eq_def]
      simp only [hnext, hfr, dite_true, htc, if_false, ite_false, if_neg]
    rw [hred] at hrun
    have hma : m = m2 := by
      injection hrun
    subst hma
    by_cases hcur : i < m.current_audio_frame
    · exact hpre i hcur
    · exfalso
      push_neg at hcur
      have hcl : m.current_audio_frame < m.audio_frames.length :=
        lt_of_le_of_lt hcur hi
      have hfr2 : m.audio_frames.get ⟨m.current_audio_frame, hcl⟩ = fr := by
        simp only [SDLMovie_GetCurrentCachedFrame] at hfr
        rw [List.getElem?_eq_getElem hcl] at hfr
        simp only [Option.some.injEq] at hfr
        rw [List.get_eq_getElem]
        exact hfr
      have hs := hsorted ⟨m.current_audio_frame, hcl⟩ ⟨i, hi⟩ hcur
      rw [hfr2] at hs
      exact htc (lt_of_le_of_lt hs htcms)
  | case5 m p hnext =>
    intro hlen hsorted hpre m2 p2 hrun i hi htcms
    have hred : audioCatchupLoop preload m p = AudioLoopOut.ok m p := by
      conv_lhs => rw [audioCatchupLoop.eq_def]
      rw [dif_neg hnext]
    rw [hred] at hrun
    have hma : m = m2 := by
      injection hrun
    subst hma
    have hcur : m.total_audio_frames ≤ m.current_audio_frame := by
      by_contra hlt
      exact hnext (by simpa [SDLMovie_HasNextAudioFrame] using Nat.lt_of_not_le hlt)
    exact hpre i (by omega)

theorem videoCatchupLoop_pres (now : Nat) (m : SDL_Movie) :
    ∀ m2,
      (videoCatchupLoop now m = VideoLoopOut.ok m2 ∨
        videoCatchupLoop now m = VideoLoopOut.err m2) →
      MovieConstEq m2 m ∧ m2.current_audio_frame = m.current_audio_frame ∧
      m2.audio_decoded = m.audio_decoded ∧
      m.current_frame ≤ m2.current_frame ∧
      (∀ i, i ∈ m.video_decoded → i ∈ m2.video_decoded) ∧
      ((∀ i, i < m.current_frame → i ∈ m.video_decoded) →
        ∀ i, i < m2.current_frame → i ∈ m2.video_decoded) := by
  induction m using videoCatchupLoop.induct now with
  | case1 m hnext hfr =>
    intro m2 hrun
    have hred : videoCatchupLoop now m = VideoLoopOut.ok m := by
      conv_lhs => rw [videoCatchupLoop.eq_def]
      simp only [hnext, hfr, dite_true]
    rw [hred] at hrun
    have hma : m = m2 := by
      rcases hrun with hrun | hrun
      · injection hrun
      · exact absurd hrun (by simp)
    subst hma
    exact ⟨movieConstEq_refl _, rfl, rfl, Nat.le_refl _, fun i hi => hi, fun hp => hp⟩
  | case2 m hnext fr hfr htc dec hdec ih =>
    intro m2 hrun
    have hdec2 : (SDLMovie_DecodeVideoFrame m).1 = true := hdec
    have hok : m.video_decode_ok m.current_frame = true := by
      by_contra hno
      rw [Bool.not_eq_true] at hno
      rw [SDLMovie_DecodeVideoFrame, hno] at hdec2
      simp at hdec2
    have hnd2 : SDLMovie_NextVideoFrame dec.2 = { m with
        current_frame := m.current_frame + 1,
        video_decoded := m.current_frame :: m.video_decoded } := by
      show SDLMovie_NextVideoFrame (SDLMovie_DecodeVideoFrame m).2 = _
      rw [SDLMovie_NextVideoFrame, SDLMovie_DecodeVideoFrame, hok]
      simp
    have hred : videoCatchupLoop now m =
        videoCatchupLoop now (SDLMovie_NextVideoFrame dec.2) := by
      conv_lhs => rw [videoCatchupLoop.eq_def]
      simp only [hnext, hfr, htc, hdec2, dite_true, if_true, ite_true]
    rw [hred] at hrun
    obtain ⟨hconst, hca, had, hle, hmem, hpref⟩ := ih m2 hrun
    rw [hnd2] at hconst hca had hle hmem hpref
    refine ⟨movieConstEq_trans hconst (by simp [MovieConstEq]), by simpa using hca,
      by simpa using had, ?_, ?_, ?_⟩
    · simp only at hle
      omega
    · intro i hi
      exact hmem i (by simp [hi])
    · intro hp i hi
      refine hpref ?_ i hi
      intro j hj
      simp only at hj
      rcases Nat.lt_succ_iff_lt_or_eq.mp hj with hj2 | hj2
      · exact List.mem_cons_of_mem _ (hp j hj2)
      · rw [hj2]
        exact List.mem_cons_self _ _
  | case3 m hnext fr hfr htc dec hdec =>
    intro m2 hrun
    have hdec2 : (SDLMovie_DecodeVideoFrame m).1 = false := by
      have hx : ¬ dec.1 = true := hdec
      rw [Bool.not_eq_true] at hx
      exact hx
    have hok : m.video_decode_ok m.current_frame = false := by
      by_contra hno
      rw [Bool.not_eq_false] at hno
      rw [SDLMovie_DecodeVideoFrame, hno] at hdec2
      simp at hdec2
    have hd2 : (SDLMovie_DecodeVideoFrame m).2 = m := by
      rw [SDLMovie_DecodeVideoFrame, hok]
      simp
    have hred : videoCatchupLoop now m = VideoLoopOut.err dec.2 := by
      conv_lhs => rw [videoCatchupLoop.eq_def]
      simp only [hnext, hfr, htc, hdec2, dite_true, if_true, ite_true, if_false,
        Bool.false_eq_true, ite_false]
    rw [hred] at hrun
    have hma : m = m2 := by
      rcases hrun with hrun | hrun
      · exact absurd hrun (by simp)
      · have hx : dec.2 = m2 := by injection hrun
        rw [← hx]
        exact hd2.symm
    subst hma
    exact ⟨movieConstEq_refl _, rfl, rfl, Nat.le_refl _, fun i hi => hi, fun hp => hp⟩
  | case4 m hnext fr hfr htc =>
    intro m2 hrun
    have hred : videoCatchupLoop now m = VideoLoopOut.ok m := by
      conv_lhs => rw [videoCatchupLoop.eq_def]
      simp only [hnext, hfr, dite_true, htc, if_false, ite_false, if_neg]
    rw [hred] at hrun
    have hma : m = m2 := by
      rcases hrun with hrun | hrun
      · injection hrun
      · exact absurd hrun (by simp)
    subst hma
    exact ⟨movieConstEq_refl _, rfl, rfl, Nat.le_refl _, fun i hi => hi, fun hp => hp⟩
  | case5 m hnext =>
    intro m2 hrun
    have hred : videoCatchupLoop now m = VideoLoopOut.ok m := by
      conv_lhs => rw [videoCatchupLoop.eq_def]
      rw [dif_neg hnext]
    rw [hred] at hrun
    have hma : m = m2 := by
      rcases hrun with hrun | hrun
      · injection hrun
      · exact absurd hrun (by simp)
    subst hma
    exact ⟨movieConstEq_refl _, rfl, rfl, Nat.le_refl _, fun i hi => hi, fun hp => hp⟩

theorem videoCatchupLoop_covers (now : Nat) (m : SDL_Movie) :
    m.total_frames = m.video_frames.length →
    (∀ i j : Fin m.video_frames.length, (i : Nat) ≤ (j : Nat) →
      SDLMovie_TimecodeToMilliseconds m (m.video_frames.get i).timecode ≤
        SDLMovie_TimecodeToMilliseconds m (m.video_frames.get j).timecode) →
    (∀ i, i < m.current_frame → i ∈ m.video_decoded) →
    ∀ m2, videoCatchupLoop now m = VideoLoopOut.ok m2 →
    ∀ i (hi : i < m.video_frames.length),
      SDLMovie_TimecodeToMilliseconds m (m.video_frames.get ⟨i, hi⟩).timecode ≤ now →
      i ∈ m2.video_decoded := by
  induction m using videoCatchupLoop.induct now with
  | case1 m hnext hfr =>
    intro hlen hsorted hpre m2 hrun i hi htcms
    exfalso
    simp only [SDLMovie_HasNextVideoFrame, decide_eq_true_eq] at hnext
    simp only [SDLMovie_GetCurrentCachedFrame] at hfr
    rw [List.getElem?_eq_none_iff] at hfr
    omega
  | case2 m hnext fr hfr htc dec hdec ih =>
    intro hlen hsorted hpre m2 hrun i hi htcms
    have hdec2 : (SDLMovie_DecodeVideoFrame m).1 = true := hdec
    have hok : m.video_decode_ok m.current_frame = true := by
      by_contra hno
      rw [Bool.not_eq_true] at hno
      rw [SDLMovie_DecodeVideoFrame, hno] at hdec2
      simp at hdec2
    have hnd2 : SDLMovie_NextVideoFrame dec.2 = { m with
        current_frame := m.current_frame + 1,
        video_decoded := m.current_frame :: m.video_decoded } := by
      show SDLMovie_NextVideoFrame (SDLMovie_DecodeVideoFrame m).2 = _
      rw [SDLMovie_NextVideoFrame, SDLMovie_DecodeVideoFrame, hok]
      simp
    have hred : videoCatchupLoop now m =
        videoCatchupLoop now (SDLMovie_NextVideoFrame dec.2) := by
      conv_lhs => rw [videoCatchupLoop.eq_def]
      simp only [hnext, hfr, htc, hdec2, dite_true, if_true, ite_true]
    rw [hred, hnd2] at hrun
    rw [hnd2] at ih
    dsimp only at ih
    refine ih hlen hsorted ?_ m2 hrun i hi htcms
    intro j hj
    rcases Nat.lt_succ_iff_lt_or_eq.mp hj with hj2 | hj2
    · exact List.mem_cons_of_mem _ (hpre j hj2)
    · rw [hj2]
      exact List.mem_cons_self _ _
  | case3 m hnext fr hfr htc dec hdec =>
    intro hlen hsorted hpre m2 hrun i hi htcms
    have hdec2 : (SDLMovie_DecodeVideoFrame m).1 = false := by
      have hx : ¬ dec.1 = true := hdec
      rw [Bool.not_eq_true] at hx
      exact hx
    have hred : videoCatchupLoop now m = VideoLoopOut.err dec.2 := by
      conv_lhs => rw [videoCatchupLoop.eq_def]
      simp only [hnext, hfr, htc, hdec2, dite_true, if_true, ite_true, if_false,
        Bool.false_eq_true, ite_false]
    rw [hred] at hrun
    exact absurd hrun (by simp)
  | case4 m hnext fr hfr htc =>
    intro hlen hsorted hpre m2 hrun i hi htcms
    have hred : videoCatchupLoop now m = VideoLoopOut.ok m := by
      conv_lhs => rw [videoCatchupLoop.eq_def]
      simp only [hnext, hfr, dite_true, htc, if_false, ite_false, if_neg]
    rw [hred] at hrun
    have hma : m = m2 := by
      injection hrun
    subst hma
    by_cases hcur : i < m.current_frame
    · exact hpre i hcur
    · exfalso
      push_neg at hcur
      have hcl : m.current_frame < m.video_frames.length := lt_of_le_of_lt hcur hi
      have hfr2 : m.video_frames.get ⟨m.current_frame, hcl⟩ = fr := by
        simp only [SDLMovie_GetCurrentCachedFrame] at hfr
        rw [List.getElem?_eq_getElem hcl] at hfr
        simp only [Option.some.injEq] at hfr
        rw [List.get_eq_getElem]
        exact hfr
      have hs := hsorted ⟨m.current_frame, hcl⟩ ⟨i, hi⟩ hcur
      rw [hfr2] at hs
      exact htc (le_trans hs htcms)
  | case5 m hnext =>
    intro hlen hsorted hpre m2 hrun i hi htcms
    have hred : videoCatchupLoop now m = VideoLoopOut.ok m := by
      conv_lhs => rw [videoCatchupLoop.eq_def]
      rw [dif_neg hnext]
    rw [hred] at hrun
    have hma : m = m2 := by
      injection hrun
    subst hma
    have hcur : m.total_frames ≤ m.current_frame := by
      by_contra hlt
      exact hnext (by simpa [SDLMovie_HasNextVideoFrame] using Nat.lt_of_not_le hlt)
    exact hpre i (by omega)

theorem tcms_congr {a b : SDL_Movie} (h : a.timecode_scale = b.timecode_scale)
    (tc : Nat) :
    SDLMovie_TimecodeToMilliseconds a tc = SDLMovie_TimecodeToMilliseconds b tc := by
  unfold SDLMovie_TimecodeToMilliseconds
  rw [h]

theorem updateAudioBranch_ne_ub (m : SDL_Movie) (p : SDL_MoviePlayer)
    (hwf : m.total_audio_frames ≤ m.audio_frames.length) :
    updateAudioBranch m p ≠ BranchOut.ub := by
  unfold updateAudioBranch
  by_cases hg : p.audio_playback = true ∧ SDLMovie_CanPlaybackAudio m = true ∧
      p.next_audio_frame_at ≤ p.current_time
  · rw [if_pos hg]
    cases hloop : audioCatchupLoop
        (p.current_time + SDL_MOVIE_PLAYER_SOUND_PRELOAD_MS) m p with
    | ub => exact absurd hloop (audioCatchupLoop_ne_ub _ m p hwf)
    | err m2 p2 => simp
    | ok m2 p2 =>
      cases hfr : SDLMovie_GetCurrentCachedFrame m2 SDL_MovieTrackType.AUDIO with
      | none => simp [hfr]
      | some fr => simp [hfr]
  · rw [if_neg hg]
    simp

theorem updateVideoBranch_ne_ub (m : SDL_Movie) (p : SDL_MoviePlayer) :
    updateVideoBranch m p ≠ BranchOut.ub := by
  unfold updateVideoBranch
  by_cases hg : p.video_playback = true ∧ SDLMovie_CanPlaybackVideo m = true ∧
      p.next_video_frame_at ≤ p.current_time
  · rw [if_pos hg]
    cases hloop : videoCatchupLoop p.current_time m with
    | err m2 => simp
    | ok m2 =>
      dsimp only
      split
      · split <;> split <;> simp
      · split <;> split <;> simp
  · rw [if_neg hg]
    simp

theorem updateAudioBranch_pres (m : SDL_Movie) (p : SDL_MoviePlayer) :
    ∀ a m2 p2,
      (updateAudioBranch m p = BranchOut.ok a m2 p2 ∨
        updateAudioBranch m p = BranchOut.err m2 p2) →
      MovieConstEq m2 m ∧ m2.current_frame = m.current_frame ∧
      m2.video_decoded = m.video_decoded ∧
      (∀ i, i ∈ m.audio_decoded → i ∈ m2.audio_decoded) ∧
      p2.paused = p.paused ∧ p2.finished = p.finished ∧
      p2.video_playback = p.video_playback ∧ p2.audio_playback = p.audio_playback ∧
      p2.last_frame_at_ticks = p.last_frame_at_ticks ∧
      p2.current_time = p.current_time ∧
      p2.next_video_frame_at = p.next_video_frame_at ∧
      p2.current_video_frame_surface = p.current_video_frame_surface ∧
      p2.output_video_frame_texture = p.output_video_frame_texture := by
  intro a m2 p2 hrun
  unfold updateAudioBranch at hrun
  by_cases hg : p.audio_playback = true ∧ SDLMovie_CanPlaybackAudio m = true ∧
      p.next_audio_frame_at ≤ p.current_time
  · rw [if_pos hg] at hrun
    cases hloop : audioCatchupLoop
        (p.current_time + SDL_MOVIE_PLAYER_SOUND_PRELOAD_MS) m p with
    | ub =>
      rw [hloop] at hrun
      dsimp only at hrun
      rcases hrun with hrun | hrun <;> exact absurd hrun (by simp)
    | err m3 p3 =>
      rw [hloop] at hrun
      dsimp only at hrun
      obtain ⟨hc1, hc2, hc3, hc4, hc5, hc6⟩ :=
        audioCatchupLoop_movie_pres _ m p m3 p3 (Or.inr hloop)
      obtain ⟨hq1, hq2, hq3, hq4, hq5, hq6, hq7, hq8, hq9, hq10⟩ :=
        audioCatchupLoop_player_pres _ m p m3 p3 (Or.inr hloop)
      rcases hrun with hrun | hrun
      · exact absurd hrun (by simp)
      · have hm : m3 = m2 := by injection hrun
        have hp : p3 = p2 := by injection hrun
        subst hm hp
        exact ⟨hc1, hc2, hc3, hc5, hq1, hq2, hq3, hq4, hq5, hq6, hq8, hq9, hq10⟩
    | ok m3 p3 =>
      rw [hloop] at hrun
      dsimp only at hrun
      obtain ⟨hc1, hc2, hc3, hc4, hc5, hc6⟩ :=
        audioCatchupLoop_movie_pres _ m p m3 p3 (Or.inl hloop)
      obtain ⟨hq1, hq2, hq3, hq4, hq5, hq6, hq7, hq8, hq9, hq10⟩ :=
        audioCatchupLoop_player_pres _ m p m3 p3 (Or.inl hloop)
      cases hfr : SDLMovie_GetCurrentCachedFrame m3 SDL_MovieTrackType.AUDIO with
      | some fr =>
        rw [hfr] at hrun
        dsimp only at hrun
        rcases hrun with hrun | hrun
        · have hm : m3 = m2 := by injection hrun
          have hp : ({ p3 with next_audio_frame_at :=
              SDLMovie_TimecodeToMilliseconds m3 fr.timecode } : SDL_MoviePlayer) = p2 := by
            injection hrun
          rw [← hm, ← hp]
          exact ⟨hc1, hc2, hc3, hc5, hq1, hq2, hq3, hq4, hq5, hq6, hq8, hq9, hq10⟩
        · exact absurd hrun (by simp)
      | none =>
        rw [hfr] at hrun
        dsimp only at hrun
        rcases hrun with hrun | hrun
        · have hm : m3 = m2 := by injection hrun
          have hp : p3 = p2 := by injection hrun
          subst hm hp
          exact ⟨hc1, hc2, hc3, hc5, hq1, hq2, hq3, hq4, hq5, hq6, hq8, hq9, hq10⟩
        · exact absurd hrun (by simp)
  · rw [if_neg hg] at hrun
    rcases hrun with hrun | hrun
    · have hm : m = m2 := by injection hrun
      have hp : p = p2 := by injection hrun
      subst hm hp
      exact ⟨movieConstEq_refl _, rfl, rfl, fun i hi => hi, rfl, rfl, rfl, rfl, rfl,
        rfl, rfl, rfl, rfl⟩
    · exact absurd hrun (by simp)

theorem updateAudioBranch_covers (m : SDL_Movie) (p : SDL_MoviePlayer) :
    m.total_audio_frames = m.audio_frames.length →
    (∀ i j : Fin m.audio_frames.length, (i : Nat) ≤ (j : Nat) →
      SDLMovie_TimecodeToMilliseconds m (m.audio_frames.get i).timecode ≤
        SDLMovie_TimecodeToMilliseconds m (m.audio_frames.get j).timecode) →
    (∀ i, i < m.current_audio_frame → i ∈ m.audio_decoded) →
    (p.audio_playback = true ∧ SDLMovie_CanPlaybackAudio m = true ∧
      p.next_audio_frame_at ≤ p.current_time) →
    ∀ a m2 p2, updateAudioBranch m p = BranchOut.ok a m2 p2 →
    ∀ i (hi : i < m.audio_frames.length),
      SDLMovie_TimecodeToMilliseconds m (m.audio_frames.get ⟨i, hi⟩).timecode <
        p.current_time + SDL_MOVIE_PLAYER_SOUND_PRELOAD_MS →
      i ∈ m2.audio_decoded := by
  intro hlen hsorted hpre hg a m2 p2 hrun i hi htcms
  unfold updateAudioBranch at hrun
  rw [if_pos hg] at hrun
  cases hloop : audioCatchupLoop
      (p.current_time + SDL_MOVIE_PLAYER_SOUND_PRELOAD_MS) m p with
  | ub =>
    rw [hloop] at hrun
    dsimp only at hrun
    exact absurd hrun (by simp)
  | err m3 p3 =>
    rw [hloop] at hrun
    dsimp only at hrun
    exact absurd hrun (by simp)
  | ok m3 p3 =>
    rw [hloop] at hrun
    dsimp only at hrun
    have hcov := audioCatchupLoop_covers
      (p.current_time + SDL_MOVIE_PLAYER_SOUND_PRELOAD_MS) m p hlen hsorted hpre
      m3 p3 hloop i hi htcms
    have hm : m3 = m2 := by
      repeat' split at hrun
      all_goals injection hrun
    rw [← hm]
    exact hcov

theorem updateVideoBranch_covers (m : SDL_Movie) (p : SDL_MoviePlayer) :
    m.total_frames = m.video_frames.length →
    (∀ i j : Fin m.video_frames.length, (i : Nat) ≤ (j : Nat) →
      SDLMovie_TimecodeToMilliseconds m (m.video_frames.get i).timecode ≤
        SDLMovie_TimecodeToMilliseconds m (m.video_frames.get j).timecode) →
    (∀ i, i < m.current_frame → i ∈ m.video_decoded) →
    (p.video_playback = true ∧ SDLMovie_CanPlaybackVideo m = true ∧
      p.next_video_frame_at ≤ p.current_time) →
    ∀ a m2 p2, updateVideoBranch m p = BranchOut.ok a m2 p2 →
    ∀ i (hi : i < m.video_frames.length),
      SDLMovie_TimecodeToMilliseconds m (m.video_frames.get ⟨i, hi⟩).timecode ≤
        p.current_time →
      i ∈ m2.video_decoded := by
  intro hlen hsorted hpre hg a m2 p2 hrun i hi htcms
  unfold updateVideoBranch at hrun
  rw [if_pos hg] at hrun
  cases hloop : videoCatchupLoop p.current_time m with
  | err m3 =>
    rw [hloop] at hrun
    dsimp only at hrun
    exact absurd hrun (by simp)
  | ok m3 =>
    rw [hloop] at hrun
    dsimp only at hrun
    have hcov := videoCatchupLoop_covers p.current_time m hlen hsorted hpre
      m3 hloop i hi htcms
    have hm : m3 = m2 := by
      repeat' split at hrun
      all_goals injection hrun
    rw [← hm]
    exact hcov

theorem updateVideoBranch_pres (m : SDL_Movie) (p : SDL_MoviePlayer) :
    ∀ a m2 p2,
      (updateVideoBranch m p = BranchOut.ok a m2 p2 ∨
        updateVideoBranch m p = BranchOut.err m2 p2) →
      MovieConstEq m2 m ∧ m2.current_audio_frame = m.current_audio_frame ∧
      m2.audio_decoded = m.audio_decoded ∧
      p2.current_time = p.current_time ∧
      p2.last_frame_at_ticks = p.last_frame_at_ticks := by
  intro a m2 p2 hrun
  unfold updateVideoBranch at hrun
  by_cases hg : p.video_playback = true ∧ SDLMovie_CanPlaybackVideo m = true ∧
      p.next_video_frame_at ≤ p.current_time
  · rw [if_pos hg] at hrun
    cases hloop : videoCatchupLoop p.current_time m with
    | err m3 =>
      rw [hloop] at hrun
      dsimp only at hrun
      obtain ⟨hc1, hc2, hc3, hc4, hc5, hc6⟩ :=
        videoCatchupLoop_pres _ m m3 (Or.inr hloop)
      rcases hrun with hrun | hrun
      · exact absurd hrun (by simp)
      · have hm : m3 = m2 := by injection hrun
        have hp : p = p2 := by injection hrun
        subst hm hp
        exact ⟨hc1, hc2, hc3, rfl, rfl⟩
    | ok m3 =>
      rw [hloop] at hrun
      dsimp only at hrun
      obtain ⟨hc1, hc2, hc3, hc4, hc5, hc6⟩ :=
        videoCatchupLoop_pres _ m m3 (Or.inl hloop)
      rcases hrun with hrun | hrun
      · have hm : m3 = m2 := by
          repeat' split at hrun
          all_goals injection hrun
        have hp : p2.current_time = p.current_time ∧
            p2.last_frame_at_ticks = p.last_frame_at_ticks := by
          repeat' split at hrun
          all_goals {
            injection hrun with h1 h2 h3
            rw [← h3]
            simp }
        rw [← hm]
        exact ⟨hc1, hc2, hc3, hp.1, hp.2⟩
      · repeat' split at hrun
        all_goals exact absurd hrun (by simp)
  · rw [if_neg hg] at hrun
    rcases hrun with hrun | hrun
    · have hm : m = m2 := by injection hrun
      have hp : p = p2 := by injection hrun
      subst hm hp
      exact ⟨movieConstEq_refl _, rfl, rfl, rfl, rfl⟩
    · exact absurd hrun (by simp)

/-- The player state right after the clock advance and tick re-sample of
SDLMovie_UpdatePlayer (lines 118-130), before either pacing branch runs
(`m` is the movie `p.mov` points to). -/
def updateEntryPlayer (p : SDL_MoviePlayer) (m : SDL_Movie) (d : Int)
    (ticks : List Nat) : SDL_MoviePlayer :=
  { p with
    mov := some m,
    current_time := p.current_time + updateTimePassed p d ticks,
    last_frame_at_ticks := (if d < 0 then ticks.tail else ticks).headD 0 }

/-- The unconsumed tick stream after an update call that passed the no-op
guards (one read when the delta is the auto sentinel, plus the line-130
re-sample read). -/
def updateTicksAfter (d : Int) (ticks : List Nat) : List Nat :=
  (if d < 0 then ticks.tail else ticks).tail

theorem updatePlayer_step_eq (p : SDL_MoviePlayer) (m : SDL_Movie) (d : Int)
    (ticks : List Nat) (hm : p.mov = some m) (hd : d ≠ 0)
    (hpau : p.paused = false) (hfin : p.finished = false) :
    SDLMovie_UpdatePlayer p d ticks =
      (match updateAudioBranch m (updateEntryPlayer p m d ticks) with
       | BranchOut.ub => none
       | BranchOut.err m3 p3 =>
         some (SDL_MoviePlayerUpdateResult.error, { p3 with mov := some m3 },
           updateTicksAfter d ticks)
       | BranchOut.ok a m3 p3 =>
         match updateVideoBranch m3 p3 with
         | BranchOut.ub => none
         | BranchOut.err m4 p4 =>
           some (SDL_MoviePlayerUpdateResult.error, { p4 with mov := some m4 },
             updateTicksAfter d ticks)
         | BranchOut.ok v m4 p4 =>
           some (SDL_MoviePlayerUpdateResult.bits a v, { p4 with mov := some m4 },
             updateTicksAfter d ticks)) := by
  unfold SDLMovie_UpdatePlayer
  rw [hm]
  dsimp only
  rw [if_neg hd, if_neg (by simp [hpau, hfin])]
  rfl

theorem updatePlayer_zero (p : SDL_MoviePlayer) (ticks : List Nat) :
    SDLMovie_UpdatePlayer p 0 ticks =
      some (SDL_MoviePlayerUpdateResult.bits false false, p, ticks) := by
  unfold SDLMovie_UpdatePlayer
  cases hm : p.mov
  · rfl
  · dsimp only
    rw [if_pos rfl]

theorem updateFinished_noop (p : SDL_MoviePlayer) (hfin : p.finished = true)
    (d : Int) (ticks : List Nat) :
    SDLMovie_UpdatePlayer p d ticks =
      some (SDL_MoviePlayerUpdateResult.bits false false, p, ticks) := by
  unfold SDLMovie_UpdatePlayer
  cases hm : p.mov
  · rfl
  · dsimp only
    by_cases hd : d = 0
    · rw [if_pos hd]
    · rw [if_neg hd, if_pos (Or.inr hfin)]

/-- Iterating `SDLMovie_UpdatePlayer` with `time_delta_ms = 0` (the tick
stream is irrelevant for a zero delta and is passed empty). -/
def updateZeroIter : Nat → SDL_MoviePlayer → SDL_MoviePlayer
  | 0, p => p
  | Nat.succ k, p =>
    updateZeroIter k ((SDLMovie_UpdatePlayer p 0 []).elim p (fun out => out.2.1))

theorem updateZeroIter_eq (n : Nat) (p : SDL_MoviePlayer) :
    updateZeroIter n p = p := by
  induction n generalizing p with
  | zero => rfl
  | succ k ih =>
    show updateZeroIter k ((SDLMovie_UpdatePlayer p 0 []).elim p (fun out => out.2.1)) = p
    rw [updatePlayer_zero]
    exact ih p

/-- The state-mutating operations of the player API surface in
SDL_movie_player.c, as one inductive so that "no operation other than
rebinding the movie" can be quantified. -/
inductive PlayerOp where
  | update (time_delta_ms : Int) (ticks : List Nat)
  | addSamples (samples : List Int) (count : Int)
  | setAudioOutput (dev : Nat) (dev_format : Option (Nat × Nat))
      (create_ok bind_ok : Bool)
  | pause
  | resume (now : Nat)
  | setAudioEnabled (enabled : Bool)
  | setVideoEnabled (enabled : Bool)
  | setVideoOutputTexture (texture : Bool) (format_matches : Bool)
  | setMovie (mov : SDL_Movie)

/-- Whether the operation is the movie rebind SDLMovie_SetPlayerMovie. -/
def PlayerOp.isSetMovie : PlayerOp → Bool
  | PlayerOp.setMovie _ => true
  | _ => false

/-- Apply one API operation to the player, keeping the resulting player
state (an update call that would hit the modelled null dereference leaves
the player unchanged here; that case cannot occur in the theorems below). -/
def applyPlayerOp (op : PlayerOp) (p : SDL_MoviePlayer) : SDL_MoviePlayer :=
  match op with
  | PlayerOp.update d ticks =>
    (SDLMovie_UpdatePlayer p d ticks).elim p (fun out => out.2.1)
  | PlayerOp.addSamples samples count =>
    SDLMovie_AddAudioSamplesToPlayer p samples count
  | PlayerOp.setAudioOutput dev fmt c b =>
    (SDLMovie_SetPlayerAudioOutput p dev fmt c b).2.1
  | PlayerOp.pause => SDLMovie_PausePlayer p
  | PlayerOp.resume now => SDLMovie_ResumePlayer p now
  | PlayerOp.setAudioEnabled e => SDLMovie_SetPlayerAudioEnabled p e
  | PlayerOp.setVideoEnabled e => SDLMovie_SetPlayerVideoEnabled p e
  | PlayerOp.setVideoOutputTexture t f => SDLMovie_SetPlayerVideoOutputTexture p t f
  | PlayerOp.setMovie mov => SDLMovie_SetPlayerMovie p mov

theorem setAudioOutput_player_finished (p : SDL_MoviePlayer) (dev : Nat)
    (fmt : Option (Nat × Nat)) (c b : Bool) :
    ((SDLMovie_SetPlayerAudioOutput p dev fmt c b).2.1).finished = p.finished := by
  unfold SDLMovie_SetPlayerAudioOutput
  dsimp only
  repeat' split
  all_goals rfl

/-- A cached frame with the given Matroska timecode (the other metadata
fields are irrelevant to the player core). -/
def mkFrame (tc : Nat) : CachedMovieFrame :=
  { timecode := tc, mem_offset := 0, offset := 0, size := 0, key_frame := true }

/-- A concrete well-formed movie for witnesses: the given cached frames per
track, cursors at the start, timecode scale of one millisecond per tick,
always-succeeding decoders producing no samples. -/
def mkMovie (af vf : List CachedMovieFrame) (ha hv : Bool) : SDL_Movie :=
  { audio_frames := af, video_frames := vf, total_audio_frames := af.length,
    total_frames := vf.length, current_audio_frame := 0, current_frame := 0,
    timecode_scale := 1000000, audio_spec := { freq := 48000, channels := 2 },
    has_audio := ha, has_video := hv, audio_codec_delay := 0, video_codec_delay := 0,
    current_frame_surface := true, audio_decode_ok := fun _ => true,
    video_decode_ok := fun _ => true, audio_frame_samples := fun _ => [],
    decoded_audio_frame := [], audio_decoded := [], video_decoded := [] }

/-- A concrete freshly-bound player over the given movie for witnesses. -/
def mkPlayer (m : SDL_Movie) (ap vp : Bool) : SDL_MoviePlayer :=
  { paused := false, finished := false, video_playback := vp, audio_playback := ap,
    mov := some m, last_frame_at_ticks := 0, current_time := 0,
    next_audio_frame_at := 0, audio_buffer := none, audio_buffer_count := 0,
    audio_buffer_capacity := 0, bound_audio_device := 0, output_audio_stream := none,
    audio_output_samples_buffer_size := 0, audio_output_samples_buffer_ms := 0,
    next_video_frame_at := 0, current_video_frame_surface := false,
    output_video_frame_texture := false }

/-- C6: for every player state (valid or not) a call to
SDLMovie_UpdatePlayer with time_delta_ms = 0 returns the distinguished
"nothing happened" result (bits false false), leaves the player completely
unchanged, and consumes no wall-clock reads; hence every sequence of such
calls leaves the state unchanged. -/
theorem C6_zero_delta_noop :
    (∀ (p : SDL_MoviePlayer) (ticks : List Nat),
      SDLMovie_UpdatePlayer p 0 ticks =
        some (SDL_MoviePlayerUpdateResult.bits false false, p, ticks)) ∧
    (∀ (n : Nat) (p : SDL_MoviePlayer), updateZeroIter n p = p) :=
  ⟨updatePlayer_zero, updateZeroIter_eq⟩

/-- C4: the finished flag is one-way.  For a player with finished = true,
every SDLMovie_UpdatePlayer call returns the "nothing happened" result with
the state and tick stream untouched, and every API operation other than
rebinding the movie (SDLMovie_SetPlayerMovie) leaves finished = true. -/
theorem C4_finished_one_way (p : SDL_MoviePlayer) (hfin : p.finished = true) :
    (∀ (d : Int) (ticks : List Nat),
      SDLMovie_UpdatePlayer p d ticks =
        some (SDL_MoviePlayerUpdateResult.bits false false, p, ticks)) ∧
    (∀ op : PlayerOp, op.isSetMovie = false →
      (applyPlayerOp op p).finished = true) := by
  refine ⟨fun d ticks => updateFinished_noop p hfin d ticks, ?_⟩
  intro op hop
  cases op with
  | update d ticks =>
    show ((SDLMovie_UpdatePlayer p d ticks).elim p (fun out => out.2.1)).finished = true
    rw [updateFinished_noop p hfin d ticks]
    exact hfin
  | addSamples s c =>
    obtain ⟨ab, n, cap, hs⟩ := addAudio_shape p s c
    show (SDLMovie_AddAudioSamplesToPlayer p s c).finished = true
    rw [hs]
    exact hfin
  | setAudioOutput dev fmt c b =>
    show ((SDLMovie_SetPlayerAudioOutput p dev fmt c b).2.1).finished = true
    rw [setAudioOutput_player_finished]
    exact hfin
  | pause =>
    show (SDLMovie_PausePlayer p).finished = true
    unfold SDLMovie_PausePlayer
    cases p.mov <;> exact hfin
  | resume now =>
    show (SDLMovie_ResumePlayer p now).finished = true
    unfold SDLMovie_ResumePlayer
    cases p.mov <;> exact hfin
  | setAudioEnabled e =>
    show (SDLMovie_SetPlayerAudioEnabled p e).finished = true
    unfold SDLMovie_SetPlayerAudioEnabled
    cases p.mov
    · exact hfin
    · dsimp only
      split <;> exact hfin
  | setVideoEnabled e =>
    show (SDLMovie_SetPlayerVideoEnabled p e).finished = true
    unfold SDLMovie_SetPlayerVideoEnabled
    cases p.mov
    · exact hfin
    · dsimp only
      split <;> exact hfin
  | setVideoOutputTexture t f =>
    show (SDLMovie_SetPlayerVideoOutputTexture p t f).finished = true
    unfold SDLMovie_SetPlayerVideoOutputTexture
    cases p.mov
    · exact hfin
    · dsimp only
      split
      · exact hfin
      · split
        · exact hfin
        · split <;> exact hfin
  | setMovie mov =>
    simp [PlayerOp.isSetMovie] at hop

/-- A concrete finished player used to witness C4. -/
def finishedPlayer : SDL_MoviePlayer :=
  { mkPlayer (mkMovie [] [mkFrame 0] false true) false true with finished := true }

theorem C4_finished_one_way_witness :
    (∀ (d : Int) (ticks : List Nat),
      SDLMovie_UpdatePlayer finishedPlayer d ticks =
        some (SDL_MoviePlayerUpdateResult.bits false false, finishedPlayer, ticks)) ∧
    (∀ op : PlayerOp, op.isSetMovie = false →
      (applyPlayerOp op finishedPlayer).finished = true) :=
  C4_finished_one_way finishedPlayer rfl

/-- C5: for a valid player (bound movie, well-formed audio index), not
paused and not finished, an update by a literal positive delta d advances
current_time by exactly d, whatever the pacing branches do (the call always
returns a defined result; even an ERROR return keeps the advanced clock). -/
theorem C5_advance_exact_delta (p : SDL_MoviePlayer) (m : SDL_Movie) (d : Int)
    (ticks : List Nat) (hm : p.mov = some m)
    (hwf : m.total_audio_frames ≤ m.audio_frames.length)
    (hpau : p.paused = false) (hfin : p.finished = false) (hd : 0 < d) :
    ∃ r p2 ts2, SDLMovie_UpdatePlayer p d ticks = some (r, p2, ts2) ∧
      p2.current_time = p.current_time + d.toNat := by
  have hd0 : d ≠ 0 := by omega
  have htp : updateTimePassed p d ticks = d.toNat := by
    unfold updateTimePassed
    rw [if_neg (by omega)]
  have hpinct : (updateEntryPlayer p m d ticks).current_time =
      p.current_time + d.toNat := by
    rw [updateEntryPlayer]
    dsimp only
    rw [htp]
  rw [updatePlayer_step_eq p m d ticks hm hd0 hpau hfin]
  cases haud : updateAudioBranch m (updateEntryPlayer p m d ticks) with
  | ub => exact absurd haud (updateAudioBranch_ne_ub m _ hwf)
  | err m3 p3 =>
    obtain ⟨_, _, _, _, _, _, _, _, _, hct, _, _, _⟩ :=
      updateAudioBranch_pres m (updateEntryPlayer p m d ticks) true m3 p3
        (Or.inr haud)
    refine ⟨_, _, _, rfl, ?_⟩
    show p3.current_time = p.current_time + d.toNat
    rw [hct, hpinct]
  | ok a m3 p3 =>
    dsimp only
    obtain ⟨_, _, _, _, _, _, _, _, _, hct, _, _, _⟩ :=
      updateAudioBranch_pres m (updateEntryPlayer p m d ticks) a m3 p3
        (Or.inl haud)
    cases hvid : updateVideoBranch m3 p3 with
    | ub => exact absurd hvid (updateVideoBranch_ne_ub m3 p3)
    | err m4 p4 =>
      dsimp only
      obtain ⟨_, _, _, hct2, _⟩ :=
        updateVideoBranch_pres m3 p3 true m4 p4 (Or.inr hvid)
      refine ⟨_, _, _, rfl, ?_⟩
      show p4.current_time = p.current_time + d.toNat
      rw [hct2, hct, hpinct]
    | ok v m4 p4 =>
      dsimp only
      obtain ⟨_, _, _, hct2, _⟩ :=
        updateVideoBranch_pres m3 p3 v m4 p4 (Or.inl hvid)
      refine ⟨_, _, _, rfl, ?_⟩
      show p4.current_time = p.current_time + d.toNat
      rw [hct2, hct, hpinct]

/-- A concrete valid player (movie with one video frame) witnessing C5. -/
def playerC5 : SDL_MoviePlayer := mkPlayer (mkMovie [] [mkFrame 0] false true) false true

theorem C5_advance_exact_delta_witness :
    ∃ r p2 ts2, SDLMovie_UpdatePlayer playerC5 7 [3] = some (r, p2, ts2) ∧
      p2.current_time = playerC5.current_time + (7 : Int).toNat :=
  C5_advance_exact_delta playerC5 (mkMovie [] [mkFrame 0] false true) 7 [3] rfl
    (by decide) rfl rfl (by decide)

/-- C7 (amended): in every SDLMovie_UpdatePlayer call that passes the no-op
guards and returns a defined result, last_frame_at_ticks holds the
SDL_GetTicks value read immediately after current_time is advanced and
BEFORE the audio/video pacing/decode work (line 130; the second stream read
when the delta is the auto sentinel, otherwise the first), so the time the
decode work takes is counted in the next auto-delta computation; the
remaining tick stream shows no read was taken after the pacing work. -/
theorem C7_last_tick_presample (p : SDL_MoviePlayer) (m : SDL_Movie) (d : Int)
    (ticks : List Nat) (r : SDL_MoviePlayerUpdateResult) (p2 : SDL_MoviePlayer)
    (ts2 : List Nat) (hm : p.mov = some m) (hd : d ≠ 0)
    (hpau : p.paused = false) (hfin : p.finished = false)
    (hrun : SDLMovie_UpdatePlayer p d ticks = some (r, p2, ts2)) :
    p2.last_frame_at_ticks = (if d < 0 then ticks.tail else ticks).headD 0 ∧
    ts2 = updateTicksAfter d ticks := by
  rw [updatePlayer_step_eq p m d ticks hm hd hpau hfin] at hrun
  have hpinl : (updateEntryPlayer p m d ticks).last_frame_at_ticks =
      (if d < 0 then ticks.tail else ticks).headD 0 := rfl
  cases haud : updateAudioBranch m (updateEntryPlayer p m d ticks) with
  | ub =>
    rw [haud] at hrun
    exact absurd hrun (by simp)
  | err m3 p3 =>
    rw [haud] at hrun
    dsimp only at hrun
    simp only [Option.some.injEq, Prod.mk.injEq] at hrun
    obtain ⟨h1, h2, h3⟩ := hrun
    obtain ⟨_, _, _, _, _, _, _, _, hlt, _, _, _, _⟩ :=
      updateAudioBranch_pres m (updateEntryPlayer p m d ticks) true m3 p3
        (Or.inr haud)
    constructor
    · rw [← h2]
      show p3.last_frame_at_ticks = _
      rw [hlt, hpinl]
    · exact h3.symm
  | ok a m3 p3 =>
    rw [haud] at hrun
    dsimp only at hrun
    obtain ⟨_, _, _, _, _, _, _, _, hlt, _, _, _, _⟩ :=
      updateAudioBranch_pres m (updateEntryPlayer p m d ticks) a m3 p3
        (Or.inl haud)
    cases hvid : updateVideoBranch m3 p3 with
    | ub =>
      rw [hvid] at hrun
      exact absurd hrun (by simp)
    | err m4 p4 =>
      rw [hvid] at hrun
      dsimp only at hrun
      simp only [Option.some.injEq, Prod.mk.injEq] at hrun
      obtain ⟨h1, h2, h3⟩ := hrun
      obtain ⟨_, _, _, _, hlt2⟩ :=
        updateVideoBranch_pres m3 p3 true m4 p4 (Or.inr hvid)
      constructor
      · rw [← h2]
        show p4.last_frame_at_ticks = _
        rw [hlt2, hlt, hpinl]
      · exact h3.symm
    | ok v m4 p4 =>
      rw [hvid] at hrun
      dsimp only at hrun
      simp only [Option.some.injEq, Prod.mk.injEq] at hrun
      obtain ⟨h1, h2, h3⟩ := hrun
      obtain ⟨_, _, _, _, hlt2⟩ :=
        updateVideoBranch_pres m3 p3 v m4 p4 (Or.inl hvid)
      constructor
      · rw [← h2]
        show p4.last_frame_at_ticks = _
        rw [hlt2, hlt, hpinl]
      · exact h3.symm

/-- Movie and player for the C7 counterexample: one video frame at
timecode 0, video playback enabled, no audio. -/
def movieC7 : SDL_Movie := mkMovie [] [mkFrame 0] false true

def playerC7 : SDL_MoviePlayer := mkPlayer movieC7 false true

/-- C7 counterexample: the claim says that on return last_frame_at_ticks
holds a wall-clock value read AFTER all pacing/decode work completed.  In
the run below the call decodes video frame 0 (real pacing work happens),
yet the stored value is 7 — the tick read consumed BEFORE the pacing
loops — while a read taken after the call (the next stream value) returns
99 ≠ 7.  The source comment at lines 125-129 confirms this is deliberate:
the field is recorded before decoding so decode time counts toward the
next delta. -/
theorem C7_counterexample :
    ((SDLMovie_UpdatePlayer playerC7 5 [7, 99]).map
      (fun out => out.2.1.last_frame_at_ticks)) = some 7 ∧
    ((SDLMovie_UpdatePlayer playerC7 5 [7, 99]).map (fun out => out.2.2)) =
      some [99] ∧
    ((SDLMovie_UpdatePlayer playerC7 5 [7, 99]).map
      (fun out => (out.2.1.mov.map (fun m2 => m2.video_decoded)).getD [])) =
      some [0] ∧
    (7 : Nat) ≠ 99 := by
  refine ⟨?_, ?_, ?_, by decide⟩ <;>
    simp [SDLMovie_UpdatePlayer, updateAudioBranch, updateVideoBranch,
      videoCatchupLoop, audioCatchupLoop, playerC7, movieC7, mkPlayer, mkMovie,
      mkFrame, SDLMovie_HasNextVideoFrame, SDLMovie_HasNextAudioFrame,
      SDLMovie_GetCurrentCachedFrame, SDLMovie_TimecodeToMilliseconds,
      SDLMovie_DecodeVideoFrame, SDLMovie_NextVideoFrame, updateTimePassed,
      SDLMovie_CanPlaybackAudio, SDLMovie_CanPlaybackVideo]

theorem C7_eval_for_witness :
    SDLMovie_UpdatePlayer playerC5 5 [7, 99] =
      some (SDL_MoviePlayerUpdateResult.bits false true,
        { playerC5 with
          mov := some { mkMovie [] [mkFrame 0] false true with
            current_frame := 1, video_decoded := [0] },
          current_time := 5, last_frame_at_ticks := 7, finished := true,
          current_video_frame_surface := true }, [99]) := by
  simp [SDLMovie_UpdatePlayer, updateAudioBranch, updateVideoBranch,
    videoCatchupLoop, audioCatchupLoop, playerC5, mkPlayer, mkMovie, mkFrame,
    SDLMovie_HasNextVideoFrame, SDLMovie_HasNextAudioFrame,
    SDLMovie_GetCurrentCachedFrame, SDLMovie_TimecodeToMilliseconds,
    SDLMovie_DecodeVideoFrame, SDLMovie_NextVideoFrame, updateTimePassed,
    SDLMovie_CanPlaybackAudio, SDLMovie_CanPlaybackVideo]

theorem C7_last_tick_presample_witness :
    ({ playerC5 with
        mov := some { mkMovie [] [mkFrame 0] false true with
          current_frame := 1, video_decoded := [0] },
        current_time := 5, last_frame_at_ticks := 7, finished := true,
        current_video_frame_surface := true } :
      SDL_MoviePlayer).last_frame_at_ticks =
      (if (5 : Int) < 0 then ([7, 99] : List Nat).tail else [7, 99]).headD 0 ∧
    ([99] : List Nat) = updateTicksAfter 5 [7, 99] :=
  C7_last_tick_presample playerC5 (mkMovie [] [mkFrame 0] false true) 5 [7, 99]
    (SDL_MoviePlayerUpdateResult.bits false true) _ [99] rfl (by decide) rfl rfl
    C7_eval_for_witness

/-- C3: in an SDLMovie_UpdatePlayer call whose audio pacing branch executes
(audio playback enabled, playable audio track, post-advance current_time at
or past next_audio_frame_at) and that returns a defined non-ERROR result,
every audio frame of the track whose presentation time (cached timecode
converted to milliseconds) is strictly below current_time +
SDL_MOVIE_PLAYER_SOUND_PRELOAD_MS has been decoded after the call.  The
hypotheses state the track is well formed (frame count matches the cached
index, presentation times nondecreasing along the index) and that every
frame before the cursor was already decoded — the invariant a freshly
bound movie satisfies and the decode loop preserves. -/
theorem C3_audio_preload (p : SDL_MoviePlayer) (m : SDL_Movie) (d : Int)
    (ticks : List Nat) (r : SDL_MoviePlayerUpdateResult) (p2 : SDL_MoviePlayer)
    (ts2 : List Nat) (hm : p.mov = some m)
    (hlen : m.total_audio_frames = m.audio_frames.length)
    (hsorted : ∀ i j : Fin m.audio_frames.length, (i : Nat) ≤ (j : Nat) →
      SDLMovie_TimecodeToMilliseconds m (m.audio_frames.get i).timecode ≤
        SDLMovie_TimecodeToMilliseconds m (m.audio_frames.get j).timecode)
    (hpre : ∀ i, i < m.current_audio_frame → i ∈ m.audio_decoded)
    (hd : d ≠ 0) (hpau : p.paused = false) (hfin : p.finished = false)
    (hg : p.audio_playback = true ∧ m.has_audio = true ∧
      p.next_audio_frame_at ≤ p.current_time + updateTimePassed p d ticks)
    (hrun : SDLMovie_UpdatePlayer p d ticks = some (r, p2, ts2))
    (hne : r ≠ SDL_MoviePlayerUpdateResult.error) :
    ∀ m2, p2.mov = some m2 →
    ∀ i (hi : i < m.audio_frames.length),
      SDLMovie_TimecodeToMilliseconds m (m.audio_frames.get ⟨i, hi⟩).timecode <
        p2.current_time + SDL_MOVIE_PLAYER_SOUND_PRELOAD_MS →
      i ∈ m2.audio_decoded := by
  intro m2 hm2 i hi htcms
  rw [updatePlayer_step_eq p m d ticks hm hd hpau hfin] at hrun
  have hgpin : (updateEntryPlayer p m d ticks).audio_playback = true ∧
      SDLMovie_CanPlaybackAudio m = true ∧
      (updateEntryPlayer p m d ticks).next_audio_frame_at ≤
        (updateEntryPlayer p m d ticks).current_time := by
    refine ⟨hg.1, ?_, hg.2.2⟩
    show m.has_audio = true
    exact hg.2.1
  cases haud : updateAudioBranch m (updateEntryPlayer p m d ticks) with
  | ub =>
    rw [haud] at hrun
    exact absurd hrun (by simp)
  | err m3 p3 =>
    rw [haud] at hrun
    dsimp only at hrun
    simp only [Option.some.injEq, Prod.mk.injEq] at hrun
    exact absurd hrun.1.symm hne
  | ok a m3 p3 =>
    rw [haud] at hrun
    dsimp only at hrun
    have hcov := updateAudioBranch_covers m (updateEntryPlayer p m d ticks)
      hlen hsorted hpre hgpin a m3 p3 haud
    obtain ⟨hac1, hac2, hac3, hac4, hac5, hac6, hac7, hac8, hac9, hac10,
      hac11, hac12, hac13⟩ :=
      updateAudioBranch_pres m (updateEntryPlayer p m d ticks) a m3 p3
        (Or.inl haud)
    cases hvid : updateVideoBranch m3 p3 with
    | ub =>
      rw [hvid] at hrun
      exact absurd hrun (by simp)
    | err m4 p4 =>
      rw [hvid] at hrun
      dsimp only at hrun
      simp only [Option.some.injEq, Prod.mk.injEq] at hrun
      exact absurd hrun.1.symm hne
    | ok v m4 p4 =>
      rw [hvid] at hrun
      dsimp only at hrun
      simp only [Option.some.injEq, Prod.mk.injEq] at hrun
      obtain ⟨hr, hp2, hts⟩ := hrun
      obtain ⟨hvc1, hvc2, hvc3, hvc4, hvc5⟩ :=
        updateVideoBranch_pres m3 p3 v m4 p4 (Or.inl hvid)
      have hm4 : m4 = m2 := by
        rw [← hp2] at hm2
        simpa using hm2
      have hct : p2.current_time = (updateEntryPlayer p m d ticks).current_time := by
        rw [← hp2]
        show p4.current_time = _
        rw [hvc4, hac10]
      rw [hct] at htcms
      have hmem := hcov i hi htcms
      rw [← hm4, hvc3]
      exact hmem

/-- Movie and player for the C3 witness: one audio frame at timecode 0,
audio playback enabled, no video. -/
def movieC3 : SDL_Movie := mkMovie [mkFrame 0] [] true false

def playerC3 : SDL_MoviePlayer := mkPlayer movieC3 true false

theorem C3_eval_for_witness :
    SDLMovie_UpdatePlayer playerC3 5 [3] =
      some (SDL_MoviePlayerUpdateResult.bits true false,
        { playerC3 with
          mov := some { movieC3 with current_audio_frame := 1, audio_decoded := [0] },
          current_time := 5, last_frame_at_ticks := 3 }, []) := by
  simp [SDLMovie_UpdatePlayer, updateAudioBranch, updateVideoBranch,
    videoCatchupLoop, audioCatchupLoop, playerC3, movieC3, mkPlayer, mkMovie,
    mkFrame, SDLMovie_HasNextVideoFrame, SDLMovie_HasNextAudioFrame,
    SDLMovie_GetCurrentCachedFrame, SDLMovie_TimecodeToMilliseconds,
    SDLMovie_DecodeAudioFrame, SDLMovie_NextAudioFrame, SDLMovie_GetAudioSamples,
    updateTimePassed, SDLMovie_CanPlaybackAudio, SDLMovie_CanPlaybackVideo]

theorem C3_audio_preload_witness :
    (0 : Nat) ∈ ({ movieC3 with current_audio_frame := 1, audio_decoded := [0] } :
      SDL_Movie).audio_decoded :=
  C3_audio_preload playerC3 movieC3 5 [3]
    (SDL_MoviePlayerUpdateResult.bits true false) _ [] rfl (by decide)
    (by decide) (fun i h => absurd h (Nat.not_lt_zero i)) (by decide) rfl rfl
    ⟨rfl, rfl, by decide⟩ C3_eval_for_witness (by decide)
    { movieC3 with current_audio_frame := 1, audio_decoded := [0] } rfl
    0 (by decide) (by decide)

/-- C2: in an SDLMovie_UpdatePlayer call whose video pacing branch executes
(video playback enabled, playable video track, post-advance current_time at
or past next_video_frame_at) and that returns a defined non-ERROR result,
no video frame of the track with presentation time (cached timecode
converted to milliseconds) at or below the post-increment current_time
remains undecoded after the call.  Well-formedness and
already-decoded-prefix hypotheses as in the audio preload theorem. -/
theorem C2_video_catchup (p : SDL_MoviePlayer) (m : SDL_Movie) (d : Int)
    (ticks : List Nat) (r : SDL_MoviePlayerUpdateResult) (p2 : SDL_MoviePlayer)
    (ts2 : List Nat) (hm : p.mov = some m)
    (hlen : m.total_frames = m.video_frames.length)
    (hsorted : ∀ i j : Fin m.video_frames.length, (i : Nat) ≤ (j : Nat) →
      SDLMovie_TimecodeToMilliseconds m (m.video_frames.get i).timecode ≤
        SDLMovie_TimecodeToMilliseconds m (m.video_frames.get j).timecode)
    (hpre : ∀ i, i < m.current_frame → i ∈ m.video_decoded)
    (hd : d ≠ 0) (hpau : p.paused = false) (hfin : p.finished = false)
    (hg : p.video_playback = true ∧ m.has_video = true ∧
      p.next_video_frame_at ≤ p.current_time + updateTimePassed p d ticks)
    (hrun : SDLMovie_UpdatePlayer p d ticks = some (r, p2, ts2))
    (hne : r ≠ SDL_MoviePlayerUpdateResult.error) :
    ∀ m2, p2.mov = some m2 →
    ∀ i (hi : i < m.video_frames.length),
      SDLMovie_TimecodeToMilliseconds m (m.video_frames.get ⟨i, hi⟩).timecode ≤
        p2.current_time →
      i ∈ m2.video_decoded := by
  intro m2 hm2 i hi htcms
  rw [updatePlayer_step_eq p m d ticks hm hd hpau hfin] at hrun
  cases haud : updateAudioBranch m (updateEntryPlayer p m d ticks) with
  | ub =>
    rw [haud] at hrun
    exact absurd hrun (by simp)
  | err m3 p3 =>
    rw [haud] at hrun
    dsimp only at hrun
    simp only [Option.some.injEq, Prod.mk.injEq] at hrun
    exact absurd hrun.1.symm hne
  | ok a m3 p3 =>
    rw [haud] at hrun
    dsimp only at hrun
    obtain ⟨hac1, hac2, hac3, hac4, hac5, hac6, hac7, hac8, hac9, hac10,
      hac11, hac12, hac13⟩ :=
      updateAudioBranch_pres m (updateEntryPlayer p m d ticks) a m3 p3
        (Or.inl haud)
    obtain ⟨haf, hvf, htaf, htf, hts, hsp, hha, hhv⟩ := hac1
    have hsc : SDLMovie_TimecodeToMilliseconds m3 = SDLMovie_TimecodeToMilliseconds m :=
      funext (tcms_congr hts)
    have hlen3 : m3.total_frames = m3.video_frames.length := by
      rw [htf, hvf]
      exact hlen
    have hsorted3 : ∀ i j : Fin m3.video_frames.length, (i : Nat) ≤ (j : Nat) →
        SDLMovie_TimecodeToMilliseconds m3 (m3.video_frames.get i).timecode ≤
          SDLMovie_TimecodeToMilliseconds m3 (m3.video_frames.get j).timecode := by
      rw [hvf, hsc]
      exact hsorted
    have hpre3 : ∀ i, i < m3.current_frame → i ∈ m3.video_decoded := by
      rw [hac2, hac3]
      exact hpre
    have hg3 : p3.video_playback = true ∧ SDLMovie_CanPlaybackVideo m3 = true ∧
        p3.next_video_frame_at ≤ p3.current_time := by
      refine ⟨?_, ?_, ?_⟩
      · rw [hac7]
        exact hg.1
      · show m3.has_video = true
        rw [hhv]
        exact hg.2.1
      · rw [hac11, hac10]
        exact hg.2.2
    cases hvid : updateVideoBranch m3 p3 with
    | ub =>
      rw [hvid] at hrun
      exact absurd hrun (by simp)
    | err m4 p4 =>
      rw [hvid] at hrun
      dsimp only at hrun
      simp only [Option.some.injEq, Prod.mk.injEq] at hrun
      exact absurd hrun.1.symm hne
    | ok v m4 p4 =>
      rw [hvid] at hrun
      dsimp only at hrun
      simp only [Option.some.injEq, Prod.mk.injEq] at hrun
      obtain ⟨hr, hp2, hts2⟩ := hrun
      obtain ⟨hvc1, hvc2, hvc3, hvc4, hvc5⟩ :=
        updateVideoBranch_pres m3 p3 v m4 p4 (Or.inl hvid)
      have hm4 : m4 = m2 := by
        rw [← hp2] at hm2
        simpa using hm2
      have hcov := updateVideoBranch_covers m3 p3 hlen3 hsorted3 hpre3 hg3
        v m4 p4 hvid
      rw [hvf, hsc] at hcov
      have hct : p2.current_time = p3.current_time := by
        rw [← hp2]
        show p4.current_time = _
        exact hvc4
      rw [hct] at htcms
      rw [← hm4]
      exact hcov i hi htcms

/-- Movie and player for the C2 witness: video frames at 0 and 40 ms. -/
def movieC2 : SDL_Movie := mkMovie [] [mkFrame 0, mkFrame 40] false true

def playerC2 : SDL_MoviePlayer := mkPlayer movieC2 false true

theorem C2_eval_for_witness :
    SDLMovie_UpdatePlayer playerC2 41 [3] =
      some (SDL_MoviePlayerUpdateResult.bits false true,
        { playerC2 with
          mov := some { movieC2 with current_frame := 2, video_decoded := [1, 0] },
          current_time := 41, last_frame_at_ticks := 3, finished := true,
          current_video_frame_surface := true }, []) := by
  simp [SDLMovie_UpdatePlayer, updateAudioBranch, updateVideoBranch,
    videoCatchupLoop, audioCatchupLoop, playerC2, movieC2, mkPlayer, mkMovie,
    mkFrame, SDLMovie_HasNextVideoFrame, SDLMovie_HasNextAudioFrame,
    SDLMovie_GetCurrentCachedFrame, SDLMovie_TimecodeToMilliseconds,
    SDLMovie_DecodeVideoFrame, SDLMovie_NextVideoFrame, updateTimePassed,
    SDLMovie_CanPlaybackAudio, SDLMovie_CanPlaybackVideo]

theorem C2_video_catchup_witness :
    (1 : Nat) ∈ ({ movieC2 with current_frame := 2, video_decoded := [1, 0] } :
      SDL_Movie).video_decoded :=
  C2_video_catchup playerC2 movieC2 41 [3]
    (SDL_MoviePlayerUpdateResult.bits false true) _ [] rfl (by decide)
    (by decide) (fun i h => absurd h (Nat.not_lt_zero i)) (by decide) rfl rfl
    ⟨rfl, rfl, by decide⟩ C2_eval_for_witness (by decide)
    { movieC2 with current_frame := 2, video_decoded := [1, 0] } rfl
    1 (by decide) (by decide)

/-- C1 (amended): for an append onto an already-allocated staging buffer
with 0 < count ≤ capacity, if the stored count plus the appended count
would exceed the capacity the count is reset to 0 before the samples are
written (the copy lands at base 0), otherwise the samples land at the old
count; in both cases the stored count after the append never exceeds the
capacity, which is unchanged. -/
theorem C1_staging_wraparound (p : SDL_MoviePlayer) (mv : SDL_Movie)
    (buf : Nat → Int) (samples : List Int) (count : Int)
    (hm : p.mov = some mv) (hbuf : p.audio_buffer = some buf)
    (hc : 0 < count) (hcap : count.toNat ≤ p.audio_buffer_capacity) :
    (p.audio_buffer_capacity < p.audio_buffer_count + count.toNat →
      (SDLMovie_AddAudioSamplesToPlayer p samples count).audio_buffer_count =
        count.toNat ∧
      (SDLMovie_AddAudioSamplesToPlayer p samples count).audio_buffer =
        some (writeSamplesAt buf 0 (samples.take count.toNat))) ∧
    (¬ p.audio_buffer_capacity < p.audio_buffer_count + count.toNat →
      (SDLMovie_AddAudioSamplesToPlayer p samples count).audio_buffer_count =
        p.audio_buffer_count + count.toNat ∧
      (SDLMovie_AddAudioSamplesToPlayer p samples count).audio_buffer =
        some (writeSamplesAt buf p.audio_buffer_count (samples.take count.toNat))) ∧
    (SDLMovie_AddAudioSamplesToPlayer p samples count).audio_buffer_count ≤
      (SDLMovie_AddAudioSamplesToPlayer p samples count).audio_buffer_capacity := by
  have hc0 : ¬ count ≤ 0 := by omega
  have hadd : SDLMovie_AddAudioSamplesToPlayer p samples count =
      (let player :=
        if p.audio_buffer_count + count.toNat > p.audio_buffer_capacity then
          { p with audio_buffer := some buf, audio_buffer_count := 0 }
        else p
      { player with
        audio_buffer :=
          some (writeSamplesAt buf player.audio_buffer_count
            (samples.take count.toNat)),
        audio_buffer_count := player.audio_buffer_count + count.toNat }) := by
    unfold SDLMovie_AddAudioSamplesToPlayer
    rw [hm]
    dsimp only
    rw [if_neg hc0]
    have hnone : p.audio_buffer.isNone = false := by
      rw [hbuf]
      rfl
    rw [hnone]
    simp only [Bool.false_eq_true, if_false]
    rw [hbuf, ← hm]
  rw [hadd]
  by_cases hover : p.audio_buffer_count + count.toNat > p.audio_buffer_capacity
  · rw [if_pos hover]
    dsimp only
    refine ⟨fun _ => ⟨by omega, rfl⟩, fun hno => absurd hover hno, by omega⟩
  · rw [if_neg hover]
    dsimp only
    refine ⟨fun hov => absurd hov hover, fun _ => ⟨rfl, rfl⟩, by omega⟩

/-- A player with an allocated 4-sample staging buffer for C1. -/
def playerC1 : SDL_MoviePlayer :=
  { mkPlayer (mkMovie [] [] false false) false false with
    audio_buffer := some (fun _ => 0), audio_buffer_capacity := 4,
    audio_buffer_count := 3 }

/-- C1 counterexample: the claim asserts the stored count never exceeds the
capacity after any append on an allocated buffer.  Appending 5 samples to
an allocated buffer of capacity 4 trips the reset (count goes to 0) but
then stores count = 5 > capacity = 4 — in the C source this also writes
one sample past the end of the heap allocation. -/
theorem C1_counterexample :
    (SDLMovie_AddAudioSamplesToPlayer playerC1 [1, 2, 3, 4, 5] 5).audio_buffer_capacity <
      (SDLMovie_AddAudioSamplesToPlayer playerC1 [1, 2, 3, 4, 5] 5).audio_buffer_count := by
  decide

theorem C1_staging_wraparound_witness :
    (playerC1.audio_buffer_capacity < playerC1.audio_buffer_count + (2 : Int).toNat →
      (SDLMovie_AddAudioSamplesToPlayer playerC1 [1, 2] 2).audio_buffer_count =
        (2 : Int).toNat ∧
      (SDLMovie_AddAudioSamplesToPlayer playerC1 [1, 2] 2).audio_buffer =
        some (writeSamplesAt (fun _ => 0) 0 (([1, 2] : List Int).take (2 : Int).toNat))) ∧
    (¬ playerC1.audio_buffer_capacity < playerC1.audio_buffer_count + (2 : Int).toNat →
      (SDLMovie_AddAudioSamplesToPlayer playerC1 [1, 2] 2).audio_buffer_count =
        playerC1.audio_buffer_count + (2 : Int).toNat ∧
      (SDLMovie_AddAudioSamplesToPlayer playerC1 [1, 2] 2).audio_buffer =
        some (writeSamplesAt (fun _ => 0) playerC1.audio_buffer_count
          (([1, 2] : List Int).take (2 : Int).toNat))) ∧
    (SDLMovie_AddAudioSamplesToPlayer playerC1 [1, 2] 2).audio_buffer_count ≤
      (SDLMovie_AddAudioSamplesToPlayer playerC1 [1, 2] 2).audio_buffer_capacity :=
  C1_staging_wraparound playerC1 (mkMovie [] [] false false) (fun _ => 0) [1, 2] 2
    rfl rfl (by decide) (by decide)

/-- C8: attaching an audio output rejects the reserved default-device
sentinel and rejects a movie with no playable audio track, both without
touching the player or the stream; when it proceeds with an existing bound
stream, that stream is destroyed first (the ghost event trace starts with
destroy before any create); and device id 0 is the detach case — it
destroys any bound stream and returns success. -/
theorem C8_audio_output_contract (p : SDL_MoviePlayer) (m : SDL_Movie)
    (dev : Nat) (dev_format : Option (Nat × Nat)) (create_ok bind_ok : Bool)
    (hm : p.mov = some m) :
    (dev = SDL_AUDIO_DEVICE_DEFAULT_PLAYBACK →
      SDLMovie_SetPlayerAudioOutput p dev dev_format create_ok bind_ok =
        (false, p, [])) ∧
    (m.has_audio = false →
      SDLMovie_SetPlayerAudioOutput p dev dev_format create_ok bind_ok =
        (false, p, [])) ∧
    (m.has_audio = true →
      (SDLMovie_SetPlayerAudioOutput p 0 dev_format create_ok bind_ok).1 = true ∧
      ((SDLMovie_SetPlayerAudioOutput p 0 dev_format create_ok bind_ok).2.1).output_audio_stream =
        none) ∧
    (m.has_audio = true → dev ≠ SDL_AUDIO_DEVICE_DEFAULT_PLAYBACK →
      p.output_audio_stream.isSome = true →
      ((SDLMovie_SetPlayerAudioOutput p dev dev_format create_ok bind_ok).2.2).head? =
        some AudioStreamEvent.destroy) := by
  refine ⟨?_, ?_, ?_, ?_⟩
  · intro hdev
    unfold SDLMovie_SetPlayerAudioOutput
    rw [hm]
    dsimp only
    rw [if_pos hdev]
  · intro hna
    unfold SDLMovie_SetPlayerAudioOutput
    rw [hm]
    dsimp only
    by_cases hdev : dev = SDL_AUDIO_DEVICE_DEFAULT_PLAYBACK
    · rw [if_pos hdev]
    · rw [if_neg hdev, if_pos]
      show ¬ SDLMovie_CanPlaybackAudio m = true
      simp [SDLMovie_CanPlaybackAudio, hna]
  · intro ha
    unfold SDLMovie_SetPlayerAudioOutput
    rw [hm]
    dsimp only
    rw [if_neg (by decide : ¬ (0 : Nat) = SDL_AUDIO_DEVICE_DEFAULT_PLAYBACK)]
    rw [if_neg (show ¬ ¬ SDLMovie_CanPlaybackAudio m = true by
      simp [SDLMovie_CanPlaybackAudio, ha])]
    cases hs : p.output_audio_stream with
    | none => simp [hs]
    | some s => simp [hs]
  · intro ha hdev hsome
    unfold SDLMovie_SetPlayerAudioOutput
    rw [hm]
    dsimp only
    rw [if_neg hdev]
    rw [if_neg (show ¬ ¬ SDLMovie_CanPlaybackAudio m = true by
      simp [SDLMovie_CanPlaybackAudio, ha])]
    simp only [hsome, if_true, ite_true]
    repeat' split
    all_goals rfl

/-- A player with a bound output stream over an audio-capable movie, for
the C8 witness (device 3, format query succeeds, create and bind
succeed). -/
def playerC8 : SDL_MoviePlayer :=
  { mkPlayer (mkMovie [mkFrame 0] [] true false) true false with
    output_audio_stream := some [], bound_audio_device := 9 }

theorem C8_audio_output_contract_witness :
    ((3 : Nat) = SDL_AUDIO_DEVICE_DEFAULT_PLAYBACK →
      SDLMovie_SetPlayerAudioOutput playerC8 3 (some (100, 0)) true true =
        (false, playerC8, [])) ∧
    ((mkMovie [mkFrame 0] [] true false).has_audio = false →
      SDLMovie_SetPlayerAudioOutput playerC8 3 (some (100, 0)) true true =
        (false, playerC8, [])) ∧
    ((mkMovie [mkFrame 0] [] true false).has_audio = true →
      (SDLMovie_SetPlayerAudioOutput playerC8 0 (some (100, 0)) true true).1 = true ∧
      ((SDLMovie_SetPlayerAudioOutput playerC8 0 (some (100, 0)) true true).2.1).output_audio_stream =
        none) ∧
    ((mkMovie [mkFrame 0] [] true false).has_audio = true →
      (3 : Nat) ≠ SDL_AUDIO_DEVICE_DEFAULT_PLAYBACK →
      playerC8.output_audio_stream.isSome = true →
      ((SDLMovie_SetPlayerAudioOutput playerC8 3 (some (100, 0)) true true).2.2).head? =
        some AudioStreamEvent.destroy) :=
  C8_audio_output_contract playerC8 (mkMovie [mkFrame 0] [] true false) 3
    (some (100, 0)) true true rfl

/-- C10: polling available audio samples on a player whose staging buffer
was never allocated returns a null pointer and writes nothing through the
caller's count pointer, even for a valid player; once the buffer is
allocated the call exposes the backing storage and writes the current
count exactly when the count pointer is non-null. -/
theorem C10_available_samples (p : SDL_MoviePlayer) (m : SDL_Movie)
    (hm : p.mov = some m) :
    (p.audio_buffer = none →
      ∀ count_ptr : Bool,
        SDLMovie_GetPlayerAvailableAudioSamples p count_ptr = (none, none)) ∧
    (∀ buf, p.audio_buffer = some buf →
      SDLMovie_GetPlayerAvailableAudioSamples p true =
        (some buf, some p.audio_buffer_count) ∧
      SDLMovie_GetPlayerAvailableAudioSamples p false = (some buf, none)) := by
  constructor
  · intro hb count_ptr
    unfold SDLMovie_GetPlayerAvailableAudioSamples
    rw [hm]
    dsimp only
    rw [hb]
  · intro buf hb
    constructor
    · unfold SDLMovie_GetPlayerAvailableAudioSamples
      rw [hm]
      dsimp only
      rw [hb]
      rfl
    · unfold SDLMovie_GetPlayerAvailableAudioSamples
      rw [hm]
      dsimp only
      rw [hb]
      rfl

theorem C10_available_samples_witness :
    (playerC1.audio_buffer = none →
      ∀ count_ptr : Bool,
        SDLMovie_GetPlayerAvailableAudioSamples playerC1 count_ptr = (none, none)) ∧
    (∀ buf, playerC1.audio_buffer = some buf →
      SDLMovie_GetPlayerAvailableAudioSamples playerC1 true =
        (some buf, some playerC1.audio_buffer_count) ∧
      SDLMovie_GetPlayerAvailableAudioSamples playerC1 false = (some buf, none)) :=
  C10_available_samples playerC1 (mkMovie [] [] false false) rfl

theorem updateAudioBranch_ne_ub_noaudio (m : SDL_Movie) (p : SDL_MoviePlayer)
    (h : p.audio_playback = false) :
    updateAudioBranch m p ≠ BranchOut.ub := by
  unfold updateAudioBranch
  rw [if_neg]
  · simp
  · intro hg
    rw [h] at hg
    exact absurd hg.1 (by simp)

theorem updatePlayer_isSome (p : SDL_MoviePlayer) (m : SDL_Movie) (d : Int)
    (ticks : List Nat) (hm : p.mov = some m)
    (hsafe : m.total_audio_frames ≤ m.audio_frames.length ∨
      p.audio_playback = false) :
    (SDLMovie_UpdatePlayer p d ticks).isSome = true := by
  by_cases hd : d = 0
  · subst hd
    rw [updatePlayer_zero]
    rfl
  · by_cases hpf : p.paused = true ∨ p.finished = true
    · unfold SDLMovie_UpdatePlayer
      rw [hm]
      dsimp only
      rw [if_neg hd, if_pos hpf]
      rfl
    · push_neg at hpf
      obtain ⟨hp1, hp2⟩ := hpf
      simp only [ne_eq, Bool.not_eq_true] at hp1 hp2
      rw [updatePlayer_step_eq p m d ticks hm hd hp1 hp2]
      have hnub : updateAudioBranch m (updateEntryPlayer p m d ticks) ≠
          BranchOut.ub := by
        rcases hsafe with hwf | hnap
        · exact updateAudioBranch_ne_ub m _ hwf
        · exact updateAudioBranch_ne_ub_noaudio m _ hnap
      cases haud : updateAudioBranch m (updateEntryPlayer p m d ticks) with
      | ub => exact absurd haud hnub
      | err m3 p3 => rfl
      | ok a m3 p3 =>
        dsimp only
        cases hvid : updateVideoBranch m3 p3 with
        | ub => exact absurd hvid (updateVideoBranch_ne_ub m3 p3)
        | err m4 p4 => rfl
        | ok v m4 p4 => rfl

/-- A movie whose cached-frame count claims one audio frame while the
cached index is empty: the audio pacing loop of SDLMovie_UpdatePlayer then
dereferences the null cached-frame pointer (line 150). -/
def movieC9bad : SDL_Movie :=
  { mkMovie [] [] true false with total_audio_frames := 1 }

def playerC9bad : SDL_MoviePlayer := mkPlayer movieC9bad true false

/-- C9 (implicit): the audio pacing loop reads the cached-frame pointer
with no null check, so SDLMovie_UpdatePlayer is total exactly under the
precondition that the current cached audio frame exists whenever
SDLMovie_HasNextAudioFrame holds (here: the audio frame count does not
exceed the cached index length), or trivially when the audio branch cannot
run; without that precondition the null dereference is reachable (second
conjunct, the modelled undefined behavior `none`).  The video loop guards
its pointer against null (line 202) and needs no such precondition — the
disjunct `audio_playback = false` covers arbitrary, even ill-formed, video
tracks. -/
theorem C9_audio_frame_null_guard (p : SDL_MoviePlayer) (m : SDL_Movie)
    (d : Int) (ticks : List Nat) (hm : p.mov = some m)
    (hsafe : m.total_audio_frames ≤ m.audio_frames.length ∨
      p.audio_playback = false) :
    (SDLMovie_UpdatePlayer p d ticks).isSome = true ∧
    SDLMovie_UpdatePlayer playerC9bad 1 [0, 0] = none := by
  refine ⟨updatePlayer_isSome p m d ticks hm hsafe, ?_⟩
  simp [SDLMovie_UpdatePlayer, updateAudioBranch, audioCatchupLoop, playerC9bad,
    movieC9bad, mkPlayer, mkMovie, SDLMovie_HasNextAudioFrame,
    SDLMovie_GetCurrentCachedFrame, updateTimePassed, SDLMovie_CanPlaybackAudio]

theorem C9_audio_frame_null_guard_witness :
    ((SDLMovie_UpdatePlayer playerC5 3 [1]).isSome = true) ∧
    SDLMovie_UpdatePlayer playerC9bad 1 [0, 0] = none :=
  C9_audio_frame_null_guard playerC5 (mkMovie [] [mkFrame 0] false true) 3 [1]
    rfl (Or.inl (by decide))
